import Mathlib

/-!
A shallow embedding of `rtpsend.c` (rtptools): the script-line parsers, the
RTP/RTCP packet serializers, and the pacing loop, together with theorems about
the claims of the specification.

Strings from the C code are modelled as `List Char`; packet bytes as
`List Nat` with every element a value in `[0, 256)`; machine integers as `Nat`
with explicit `% 2^w` where the C code truncates (bitfield stores, `htonl`,
`htons`, `uint32_t` conversions).  Functions that call `exit(2)` after an
`fprintf(stderr, ...)` are modelled in the `Except (List Char)` monad, the
error value being the diagnostic text.
-/

namespace Rtpsend

/-- C `isspace` on the ASCII characters that can occur in a script line. -/
def isSpaceC (c : Char) : Bool :=
  c == ' ' || c == '\t' || c == '\n' || c == '\x0b' || c == '\x0c' || c == '\r'

/-- Value of one hexadecimal digit, `none` for a non-digit. -/
def hexDigitVal (c : Char) : Option Nat :=
  if '0' ≤ c ∧ c ≤ '9' then some (c.toNat - 48)
  else if 'a' ≤ c ∧ c ≤ 'f' then some (c.toNat - 87)
  else if 'A' ≤ c ∧ c ≤ 'F' then some (c.toNat - 55)
  else none

/-- Digit value in base `b` (`b` is 8, 10 or 16), `none` when invalid. -/
def digitValB (b : Nat) (c : Char) : Option Nat :=
  match hexDigitVal c with
  | some v => if v < b then some v else none
  | none => none

/-- Accumulate the maximal run of base-`b` digits, as `strtoul` does. -/
def digitsVal (b : Nat) : List Char → Nat → Nat
  | [], acc => acc
  | c :: cs, acc =>
    match digitValB b c with
    | some v => digitsVal b cs (acc * b + v)
    | none => acc

/-- C `strtoul(s, NULL, 0)`: skip whitespace, optional sign, base prefix
(`0x`/`0X` hex, leading `0` octal, else decimal), maximal digit run, with the
`unsigned long` clamp on overflow and unsigned negation for a leading `-`. -/
def strtoul0 (s : List Char) : Nat :=
  let s1 := s.dropWhile isSpaceC
  let (neg, s2) :=
    match s1 with
    | '-' :: r => (true, r)
    | '+' :: r => (false, r)
    | _ => (false, s1)
  let v :=
    match s2 with
    | '0' :: 'x' :: r => digitsVal 16 r 0
    | '0' :: 'X' :: r => digitsVal 16 r 0
    | '0' :: r => digitsVal 8 r 0
    | _ => digitsVal 10 s2 0
  let v := if v < 2 ^ 64 then v else 2 ^ 64 - 1
  if neg then (2 ^ 64 - v) % 2 ^ 64 else v

/-- C `atoi`: skip whitespace, optional sign, maximal run of decimal digits. -/
def atoiInt (s : List Char) : Int :=
  let s1 := s.dropWhile isSpaceC
  match s1 with
  | '-' :: r => -(digitsVal 10 (r.takeWhile Char.isDigit) 0 : Int)
  | '+' :: r => (digitsVal 10 (r.takeWhile Char.isDigit) 0 : Int)
  | _ => (digitsVal 10 (s1.takeWhile Char.isDigit) 0 : Int)

/-- C `strtol(byte, NULL, 16)` applied to the two-character buffer `byte`
assembled by `hex`: value of the maximal hexadecimal prefix. -/
def strtol16 (a b : Char) : Nat :=
  match hexDigitVal a with
  | none => 0
  | some v1 =>
    match hexDigitVal b with
    | none => v1
    | some v2 => 16 * v1 + v2

/-- Pair up the gathered nibble characters; a trailing odd nibble is dropped. -/
def hexPairs : List Char → List Nat
  | a :: b :: rest => strtol16 a b :: hexPairs rest
  | _ => []

/-- `hex` from rtpsend.c: hexadecimal text to bytes, embedded whitespace
ignored, two nibbles per byte, returning the decoded bytes (the C function
returns the byte count and fills the caller's buffer). -/
def hex (text : List Char) : List Nat :=
  hexPairs (text.filter (fun c => !isSpaceC c))

/-- Big-endian bytes of a 16-bit value (the result of an `htons` store). -/
def be16 (v : Nat) : List Nat := [v / 256 % 256, v % 256]

/-- Big-endian bytes of a 32-bit value (the result of an `htonl` store). -/
def be32 (v : Nat) : List Nat :=
  [v / 2 ^ 24 % 256, v / 2 ^ 16 % 256, v / 2 ^ 8 % 256, v % 256]

/-- Host-order bytes of a `uint32_t` stored without `htonl` (the CSRC words in
`rtp`): little-endian byte order when `le` is true, big-endian otherwise. -/
def store32 (le : Bool) (v : Nat) : List Nat :=
  if le then [v % 256, v / 2 ^ 8 % 256, v / 2 ^ 16 % 256, v / 2 ^ 24 % 256]
  else be32 v

/-- Parse-tree node of rtpsend.c.  `calloc` zeroes every field; `parse` only
ever produces a node with `type` set (a leaf, `list = NULL`) or a node with
`list` set and `type = NULL` (a group); a group whose recursive parse yields no
nodes carries `list = NULL`, modelled as `group []`. -/
inductive Node where
  | leaf (ty : List Char) (num : Nat) (str : Option (List Char))
  | group (children : List Node)

/-- Split the leaf text at the first `=` (C `strchr(tmp, '=')`). -/
def splitEq : List Char → Option (List Char × List Char)
  | [] => none
  | '=' :: rest => some ([], rest)
  | c :: rest =>
    match splitEq rest with
    | none => none
    | some (a, b) => some (c :: a, b)

/-- Build a leaf node from the accumulated token text, as the whitespace branch
of `parse` does: split at the first `=`; a value starting with a digit becomes
`num` via `strtoul(v, NULL, 0)`, otherwise the value is kept as a string with
its last character chopped and its first character skipped (quote stripping). -/
def mkLeaf (tmp : List Char) : Node :=
  match splitEq tmp with
  | none => Node.leaf tmp 0 none
  | some (name, v) =>
    match v with
    | c :: _ =>
      if c.isDigit then Node.leaf name (strtoul0 v) none
      else Node.leaf name 0 (some (v.dropLast.drop 1))
    | [] => Node.leaf name 0 (some [])

/-- The character loop of `parse`, parameterized by the recursive call used for
a closed group (`n->list = parse(tmp)`); structural in the text.  State:
current character list, string mode, nesting `level` (a C `int`), the `tmp`
accumulation buffer, and the node list built so far. -/
def parseAuxG (rec : List Char → List Node) :
    List Char → Bool → Int → List Char → List Node → List Node
  | [], _, _, _, acc => acc
  | ch :: s, strMode, level, tmp, acc =>
    if strMode then
      parseAuxG rec s (ch != '"') level (tmp ++ [ch]) acc
    else if ch == '(' then
      if level > 0 then parseAuxG rec s false (level + 1) (tmp ++ [ch]) acc
      else parseAuxG rec s false (level + 1) [] acc
    else if ch == ')' then
      if level - 1 == 0 then
        parseAuxG rec s false (level - 1) [] (acc ++ [Node.group (rec tmp)])
      else parseAuxG rec s false (level - 1) (tmp ++ [ch]) acc
    else if ch == '"' then
      parseAuxG rec s true level (tmp ++ [ch]) acc
    else if level ≥ 1 then
      parseAuxG rec s false level (tmp ++ [ch]) acc
    else if isSpaceC ch then
      if tmp == [] then parseAuxG rec s false level tmp acc
      else parseAuxG rec s false level [] (acc ++ [mkLeaf tmp])
    else
      parseAuxG rec s false level (tmp ++ [ch]) acc

/-- Fuelled `parse`: the text of a closed group is strictly shorter than the
enclosing text (its two parentheses are not buffered), so `length + 1` fuel
always suffices. -/
def parseF : Nat → List Char → List Node
  | 0, _ => []
  | fuel + 1, text => parseAuxG (parseF fuel) text false 0 [] []

/-- `parse` from rtpsend.c: textual description to a list of parse-tree
nodes. -/
def parse (text : List Char) : List Node :=
  parseF (text.length + 1) text

/-- SDES item type map of `rtcp_sdes_item` (codes from rtp.h, modelled from
the spec: end=0, cname=1, name=2, email=3, phone=4, loc=5, tool=6, note=7,
priv=8).  The C lookup uses `strcasecmp` and an unknown name falls through to
the zero sentinel entry, yielding type 0. -/
def sdesItemType (ty : List Char) : Nat :=
  let t := ty.map Char.toLower
  if t = "end".data then 0
  else if t = "cname".data then 1
  else if t = "name".data then 2
  else if t = "email".data then 3
  else if t = "phone".data then 4
  else if t = "loc".data then 5
  else if t = "tool".data then 6
  else if t = "note".data then 7
  else if t = "priv".data then 8
  else 0

/-- `rtcp_sdes_item`: one SDES item, returning the advance
(`item->length + 2`, with the 8-bit truncation of the length field) and the
bytes `type | length | text` (the NUL that `strcpy` writes one byte past the
item is always overwritten by the next item, the end marker or the padding,
all of which are zero bytes). -/
def rtcp_sdes_item (ty : List Char) (s : List Char) : Nat × List Nat :=
  let len := s.length % 256
  (len + 2, [sdesItemType ty, len] ++ s.map (fun c => c.toNat % 256))

/-- State of the `rtcp_sdes` chunk loop: the SRC word (field of the overlaid
`struct rtcp_sdes`, zero-initialized buffer), accumulated item bytes and the
running `total` (starts at 4 for the SRC word). -/
structure SChunkSt where
  src : Nat := 0
  items : List Nat := []
  total : Nat := 4

/-- Leaf loop of `rtcp_sdes`: `src=` sets the SRC word (`htonl`), any other
leaf becomes an item; nodes without a type are skipped. -/
def sdesChunkLoop : List Node → SChunkSt → SChunkSt
  | [], st => st
  | n :: rest, st =>
    match n with
    | .group _ => sdesChunkLoop rest st
    | .leaf ty num s =>
      if ty = "src".data then sdesChunkLoop rest { st with src := num % 2 ^ 32 }
      else
        let r := rtcp_sdes_item ty (s.getD [])
        sdesChunkLoop rest
          { st with items := st.items ++ r.2, total := st.total + r.1 }

/-- `rtcp_sdes`: one SDES chunk: SRC word, items, a zero end marker, then
zero padding up to `len = (total + 3) & 0xfffc`.  Returns the advance `len`
and the chunk bytes. -/
def rtcp_sdes (list : List Node) : Nat × List Nat :=
  let st := sdesChunkLoop list {}
  let total := st.total + 1
  let len := (total + 3) &&& 0xfffc
  (len, be32 st.src ++ st.items ++ [0] ++ List.replicate (len - total) 0)

/-- The 4-byte RTCP common header: `V(2)=2 | P(1) | count(5) | PT(8) |
length(16)` (wire layout modelled from the spec; multi-byte fields stored via
`htons`/`htonl` are big-endian on the wire). -/
def commonHdr (p count pt length : Nat) : List Nat :=
  [128 + p % 2 * 32 + count % 32, pt % 256] ++ be16 length

/-- State shared by the SDES and BYE record writers: header bitfields
(`p`, 5-bit `count`, 16-bit `length`, all zeroed first), accumulated body
bytes, running `total` and the local chunk counter `count`. -/
structure WSdesSt where
  p : Nat := 0
  countF : Nat := 0
  lengthF : Nat := 0
  body : List Nat := []
  total : Nat := 4
  cnt : Nat := 0

/-- Node loop of `rtcp_write_sdes`: record-level leaves `SDES`, `p=`,
`count=`, `len=` are recognized, any other leaf is a fatal error (`exit(2)`);
a list node becomes a chunk via `rtcp_sdes`. -/
def sdesLoop : List Node → WSdesSt → Except (List Char) WSdesSt
  | [], st => .ok st
  | n :: rest, st =>
    match n with
    | .group children =>
      let r := rtcp_sdes children
      sdesLoop rest
        { st with body := st.body ++ r.2, total := st.total + r.1, cnt := st.cnt + 1 }
    | .leaf ty num _ =>
      if ty = "SDES".data then sdesLoop rest st
      else if ty = "p".data then sdesLoop rest { st with p := num % 2 }
      else if ty = "count".data then sdesLoop rest { st with countF := num % 32 }
      else if ty = "len".data then sdesLoop rest { st with lengthF := num % 2 ^ 16 }
      else .error ("Invalid RTCP type ".data ++ ty)

/-- `rtcp_write_sdes` (PT = 202): common header plus chunks; a zero length or
count field is filled in from the bytes written / chunks counted.  Returns the
C return value `total` and the record bytes. -/
def rtcp_write_sdes (list : List Node) : Except (List Char) (Nat × List Nat) := do
  let st ← sdesLoop list {}
  let lengthF := if st.lengthF = 0 then (st.total - 4) / 4 % 2 ^ 16 else st.lengthF
  let countF := if st.countF = 0 then st.cnt % 32 else st.countF
  .ok (st.total, commonHdr st.p countF 202 lengthF ++ st.body)

/-- Fields of one report block (`rtcp_rr_t`, zero-initialized buffer). -/
structure RBlockSt where
  ssrc : Nat := 0
  fraction : Nat := 0
  lost : Nat := 0
  last_seq : Nat := 0
  jitter : Nat := 0
  lsr : Nat := 0
  dlsr : Nat := 0

/-- Leaf loop of `rtcp_rr`: the recognized block leaves set fields (with the
bit-width truncation of the struct fields: `fraction` is the 8-bit field
assigned `num * 256`, `lost` the 24-bit field packed by `RTCP_SET_LOST`); an
unknown leaf is a fatal error; nodes without a type are ignored. -/
def rrBlockLoop : List Node → RBlockSt → Except (List Char) RBlockSt
  | [], st => .ok st
  | n :: rest, st =>
    match n with
    | .group _ => rrBlockLoop rest st
    | .leaf ty num _ =>
      if ty = "ssrc".data then rrBlockLoop rest { st with ssrc := num % 2 ^ 32 }
      else if ty = "fraction".data then rrBlockLoop rest { st with fraction := num * 256 % 256 }
      else if ty = "lost".data then rrBlockLoop rest { st with lost := num % 2 ^ 24 }
      else if ty = "last_seq".data then rrBlockLoop rest { st with last_seq := num % 2 ^ 32 }
      else if ty = "jit".data then rrBlockLoop rest { st with jitter := num % 2 ^ 32 }
      else if ty = "lsr".data then rrBlockLoop rest { st with lsr := num % 2 ^ 32 }
      else if ty = "dlsr".data then rrBlockLoop rest { st with dlsr := num % 2 ^ 32 }
      else .error ("Invalid RTCP RR type ".data ++ ty)

/-- Big-endian bytes of the 24-bit `lost` field. -/
def be24 (v : Nat) : List Nat := [v / 2 ^ 16 % 256, v / 2 ^ 8 % 256, v % 256]

/-- `rtcp_rr`: one 24-byte report block (`sizeof(rtcp_rr_t)`), layout
`ssrc | fraction | lost | last_seq | jitter | lsr | dlsr` (modelled from the
spec's block layout). -/
def rtcp_rr (list : List Node) : Except (List Char) (Nat × List Nat) := do
  let st ← rrBlockLoop list {}
  .ok (24, be32 st.ssrc ++ [st.fraction % 256] ++ be24 st.lost ++ be32 st.last_seq ++
    be32 st.jitter ++ be32 st.lsr ++ be32 st.dlsr)

/-- `usec2ntp`: microseconds to the NTP fraction word, `u_int` (32-bit)
arithmetic with wraparound, via the factorization `4096 + 256 - 1825/32`. -/
def usec2ntp (usec : Nat) : Nat :=
  let u := usec % 2 ^ 32
  let t := (u * 1825 % 2 ^ 32) >>> 5
  ((u <<< 12) % 2 ^ 32 + (u <<< 8) % 2 ^ 32 + (2 ^ 32 - t)) % 2 ^ 32

/-- State of the SR record writer. -/
structure WSrSt where
  p : Nat := 0
  countF : Nat := 0
  lengthF : Nat := 0
  ssrc : Nat := 0
  ntp_sec : Nat := 0
  ntp_frac : Nat := 0
  rtp_ts : Nat := 0
  psent : Nat := 0
  osent : Nat := 0
  body : List Nat := []
  total : Nat := 28
  cnt : Nat := 0

/-- Initial SR state: `ntp_sec`/`ntp_frac` auto-populated from the wall clock
(`gettimeofday`) before the node loop runs; `ns`/`nu` are `now.tv_sec` and
`now.tv_usec`. -/
def srInit (ns nu : Nat) : WSrSt :=
  { ntp_sec := (ns + 2208988800) % 2 ^ 32, ntp_frac := usec2ntp nu }

/-- Node loop of `rtcp_write_sr`: recognized record-level leaves are `SR`,
`ssrc`, `p`, `count`, `len`, `ntp` (which assigns only `ntp_sec`), `ts`,
`psent`, `osent`; any other leaf is fatal; a list node becomes a report block
via `rtcp_rr`. -/
def srLoop : List Node → WSrSt → Except (List Char) WSrSt
  | [], st => .ok st
  | n :: rest, st =>
    match n with
    | .group children => do
      let r ← rtcp_rr children
      srLoop rest
        { st with body := st.body ++ r.2, total := st.total + r.1, cnt := st.cnt + 1 }
    | .leaf ty num _ =>
      if ty = "SR".data then srLoop rest st
      else if ty = "ssrc".data then srLoop rest { st with ssrc := num % 2 ^ 32 }
      else if ty = "p".data then srLoop rest { st with p := num % 2 }
      else if ty = "count".data then srLoop rest { st with countF := num % 32 }
      else if ty = "len".data then srLoop rest { st with lengthF := num % 2 ^ 16 }
      else if ty = "ntp".data then srLoop rest { st with ntp_sec := num % 2 ^ 32 }
      else if ty = "ts".data then srLoop rest { st with rtp_ts := num % 2 ^ 32 }
      else if ty = "psent".data then srLoop rest { st with psent := num % 2 ^ 32 }
      else if ty = "osent".data then srLoop rest { st with osent := num % 2 ^ 32 }
      else .error ("Invalid RTCP type ".data ++ ty)

/-- `rtcp_write_sr` (PT = 200): common header, SSRC, the five sender-info
words, then report blocks. -/
def rtcp_write_sr (ns nu : Nat) (list : List Node) :
    Except (List Char) (Nat × List Nat) := do
  let st ← srLoop list (srInit ns nu)
  let lengthF := if st.lengthF = 0 then (st.total - 4) / 4 % 2 ^ 16 else st.lengthF
  let countF := if st.countF = 0 then st.cnt % 32 else st.countF
  .ok (st.total, commonHdr st.p countF 200 lengthF ++ be32 st.ssrc ++ be32 st.ntp_sec ++
    be32 st.ntp_frac ++ be32 st.rtp_ts ++ be32 st.psent ++ be32 st.osent ++ st.body)

/-- State of the RR record writer. -/
structure WRrSt where
  p : Nat := 0
  countF : Nat := 0
  lengthF : Nat := 0
  ssrc : Nat := 0
  body : List Nat := []
  total : Nat := 8
  cnt : Nat := 0

/-- Node loop of `rtcp_write_rr`: recognized record-level leaves are `RR`,
`ssrc`, `p`, `count`, `len`; any other leaf is fatal; a list node becomes a
report block via `rtcp_rr`. -/
def rrLoop : List Node → WRrSt → Except (List Char) WRrSt
  | [], st => .ok st
  | n :: rest, st =>
    match n with
    | .group children => do
      let r ← rtcp_rr children
      rrLoop rest
        { st with body := st.body ++ r.2, total := st.total + r.1, cnt := st.cnt + 1 }
    | .leaf ty num _ =>
      if ty = "RR".data then rrLoop rest st
      else if ty = "ssrc".data then rrLoop rest { st with ssrc := num % 2 ^ 32 }
      else if ty = "p".data then rrLoop rest { st with p := num % 2 }
      else if ty = "count".data then rrLoop rest { st with countF := num % 32 }
      else if ty = "len".data then rrLoop rest { st with lengthF := num % 2 ^ 16 }
      else .error ("Invalid RTCP type ".data ++ ty)

/-- `rtcp_write_rr` (PT = 201): common header, SSRC, then report blocks. -/
def rtcp_write_rr (list : List Node) : Except (List Char) (Nat × List Nat) := do
  let st ← rrLoop list {}
  let lengthF := if st.lengthF = 0 then (st.total - 4) / 4 % 2 ^ 16 else st.lengthF
  let countF := if st.countF = 0 then st.cnt % 32 else st.countF
  .ok (st.total, commonHdr st.p countF 201 lengthF ++ be32 st.ssrc ++ st.body)

/-- `rtcp_bye` chunk word: the last `ssrc=` leaf wins; anything else is
ignored (the buffer word is zero-initialized). -/
def byeChunk : List Node → Nat → Nat
  | [], w => w
  | n :: rest, w =>
    match n with
    | .group _ => byeChunk rest w
    | .leaf ty num _ =>
      if ty = "ssrc".data then byeChunk rest (num % 2 ^ 32) else byeChunk rest w

/-- `rtcp_bye`: one 32-bit SSRC word per chunk, advance `sizeof(uint32_t)`. -/
def rtcp_bye (list : List Node) : Nat × List Nat :=
  (4, be32 (byeChunk list 0))

/-- Node loop of `rtcp_write_bye`: recognized record-level leaves are `BYE`,
`p`, `count`, `len`; any other leaf is fatal; a list node becomes a chunk via
`rtcp_bye`. -/
def byeLoop : List Node → WSdesSt → Except (List Char) WSdesSt
  | [], st => .ok st
  | n :: rest, st =>
    match n with
    | .group children =>
      let r := rtcp_bye children
      byeLoop rest
        { st with body := st.body ++ r.2, total := st.total + r.1, cnt := st.cnt + 1 }
    | .leaf ty num _ =>
      if ty = "BYE".data then byeLoop rest st
      else if ty = "p".data then byeLoop rest { st with p := num % 2 }
      else if ty = "count".data then byeLoop rest { st with countF := num % 32 }
      else if ty = "len".data then byeLoop rest { st with lengthF := num % 2 ^ 16 }
      else .error ("Invalid RTCP type ".data ++ ty)

/-- `rtcp_write_bye` (PT = 203): common header followed by SSRC chunks. -/
def rtcp_write_bye (list : List Node) : Except (List Char) (Nat × List Nat) := do
  let st ← byeLoop list {}
  let lengthF := if st.lengthF = 0 then (st.total - 4) / 4 % 2 ^ 16 else st.lengthF
  let countF := if st.countF = 0 then st.cnt % 32 else st.countF
  .ok (st.total, commonHdr st.p countF 203 lengthF ++ st.body)

/-- `rtcp_write_app`: placeholder, serializes nothing. -/
def rtcp_write_app (_ : List Node) : Except (List Char) (Nat × List Nat) :=
  .ok (0, [])

/-- Dispatch scan of `rtcp_packet`: the first typed node whose type is one of
the five record names selects the serializer. -/
def rtcpKind : List Node → Option (List Char)
  | [] => none
  | .group _ :: rest => rtcpKind rest
  | .leaf ty _ _ :: rest =>
    if ty = "SDES".data ∨ ty = "RR".data ∨ ty = "SR".data ∨ ty = "BYE".data ∨
       ty = "APP".data then some ty
    else rtcpKind rest

/-- `rtcp_packet`: assemble one RTCP record; with no recognized record name
the process dies with `No RTCP payload type` (`exit(2)`). -/
def rtcp_packet (ns nu : Nat) (list : List Node) :
    Except (List Char) (Nat × List Nat) :=
  match rtcpKind list with
  | some k =>
    if k = "SDES".data then rtcp_write_sdes list
    else if k = "RR".data then rtcp_write_rr list
    else if k = "SR".data then rtcp_write_sr ns nu list
    else if k = "BYE".data then rtcp_write_bye list
    else rtcp_write_app list
  | none => .error "No RTCP payload type".data

/-- Top-level loop of `rtcp`: every node with a non-NULL child list becomes
one record of the compound packet; the accumulator carries the total and the
concatenated bytes. -/
def rtcpLoop (ns nu : Nat) : List Node → Nat × List Nat →
    Except (List Char) (Nat × List Nat)
  | [], acc => .ok acc
  | n :: rest, acc =>
    match n with
    | .group (c :: cs) => do
      let r ← rtcp_packet ns nu (c :: cs)
      rtcpLoop ns nu rest (acc.1 + r.1, acc.2 ++ r.2)
    | _ => rtcpLoop ns nu rest acc

/-- `rtcp`: parse the description and serialize the compound packet. -/
def rtcp (ns nu : Nat) (text : List Char) : Except (List Char) (Nat × List Nat) :=
  rtcpLoop ns nu (parse text) (0, [])

/-- State of the `rtp` token loop: the header bitfields (as stored, i.e.
already truncated to their widths; `version` defaults to `RTP_VERSION = 2`,
everything else is zeroed by the `memset`), the local variables `cc`
(implicit CSRC count), `pl`, `ext_pl` and `length`, and the writes made to
the packet buffer past the 12-byte fixed header, as `(offset, byte)` pairs in
program order. -/
structure RtpSt where
  version : Nat := 2
  p : Nat := 0
  x : Nat := 0
  cc : Nat := 0
  m : Nat := 0
  pt : Nat := 0
  seq : Nat := 0
  ts : Nat := 0
  ssrc : Nat := 0
  ccImp : Nat := 0
  pl : Nat := 0
  extPl : Nat := 0
  length : Nat := 0
  buf : List (Nat × Nat) := []

/-- Name part of `parse_uint`: the token up to the first `=`; with no `=` the
whole word is blanked to the empty string. -/
def tokName (tok : List Char) : List Char :=
  if tok.contains '=' then tok.takeWhile (fun c => c ≠ '=') else []

/-- Value part of `parse_uint`: `strtoul` of the text after the first `=`,
narrowed to the `uint32_t` local. -/
def tokValue (tok : List Char) : Nat :=
  if tok.contains '=' then
    strtoul0 ((tok.dropWhile (fun c => c ≠ '=')).drop 1) % 2 ^ 32
  else 0

/-- The token buffer after `parse_uint` ran on it: the first `=` (or the
first character, when there is no `=`) has been overwritten with NUL.
`rtp` reads `&word[5]` and `&word[9]` from this buffer. -/
def tokBuf (tok : List Char) : List Char :=
  if tok.contains '=' then
    tok.takeWhile (fun c => c ≠ '=') ++ '\x00' :: (tok.dropWhile (fun c => c ≠ '=')).drop 1
  else '\x00' :: tok.drop 1

/-- Record a run of byte writes starting at `off`. -/
def writeBytes (buf : List (Nat × Nat)) (off : Nat) : List Nat → List (Nat × Nat)
  | [] => buf
  | b :: bs => writeBytes (buf ++ [(off, b)]) (off + 1) bs

/-- Read back a buffer byte: the last write to the offset wins; unwritten
bytes are 0 (the static packet buffer). -/
def bufGet (buf : List (Nat × Nat)) (o : Nat) : Nat :=
  buf.foldl (fun acc e => if e.1 = o then e.2 else acc) 0

/-- One token of the `rtp` `strtok` loop.  Mirrors the `strcmp` chain of the
source, in order; an unrecognized token only bumps the word counter.  The
`csrc` branch matches by 4-byte prefix, indexes with `atoi(&word[5])`, stores
the value without `htonl` (host byte order, `le` = little-endian host), and
raises the implicit count to the index; a negative index would write before
the CSRC array (undefined behaviour), modelled as no write. -/
def rtpTok (le : Bool) (st : RtpSt) (tok : List Char) : RtpSt :=
  let value := tokValue tok
  let word := tokName tok
  if word = "ts".data then { st with ts := value }
  else if word = "seq".data then { st with seq := value % 2 ^ 16 }
  else if word = "pt".data then { st with pt := value % 2 ^ 7 }
  else if word = "ssrc".data then { st with ssrc := value }
  else if word = "p".data then { st with p := if value ≠ 0 then 1 else 0 }
  else if word = "m".data then { st with m := value % 2 }
  else if word = "x".data then { st with x := value % 2 }
  else if word = "v".data then { st with version := value % 4 }
  else if word = "cc".data then { st with cc := value % 16 }
  else if word.take 4 = "csrc".data then
    let k := atoiInt ((tokBuf tok).drop 5)
    if k < 0 then st
    else
      { st with buf := writeBytes st.buf (12 + 4 * k.toNat) (store32 le value),
                ccImp := if k.toNat > st.ccImp then k.toNat else st.ccImp }
  else if word = "ext_type".data then
    { st with buf := writeBytes st.buf (12 + 4 * st.cc) (be16 (value % 2 ^ 16)),
              extPl := st.extPl + 4 }
  else if word = "ext_len".data then
    { st with buf := writeBytes st.buf (12 + 4 * st.cc + 2) (be16 (value % 2 ^ 16)),
              extPl := st.extPl + value * 4 }
  else if word = "ext_data".data then
    { st with buf := writeBytes st.buf (12 + 4 * st.cc + 4) (hex ((tokBuf tok).drop 9)) }
  else if word = "data".data then
    let bs := hex ((tokBuf tok).drop 5)
    { st with buf := writeBytes st.buf (12 + 4 * st.cc + st.extPl) bs, pl := bs.length }
  else if word = "len".data then { st with length := value }
  else st

/-- The 12-byte fixed RTP header rendered from the stored fields (wire layout
modelled from the spec: `V(2)|P(1)|X(1)|CC(4) | M(1)|PT(7) | seq | ts | ssrc`,
the multi-byte fields big-endian via `htons`/`htonl`). -/
def rtpHeaderBytes (st : RtpSt) : List Nat :=
  [st.version % 4 * 64 + st.p % 2 * 32 + st.x % 2 * 16 + st.cc % 16,
   st.m % 2 * 128 + st.pt % 128] ++ be16 st.seq ++ be32 st.ts ++ be32 st.ssrc

/-- Epilogue of `rtp`: fill in the default CC from the implicit CSRC count
and the default length, then read the packet's first `length` bytes. -/
def rtpFinish (st : RtpSt) : Nat × List Nat :=
  let st := if st.cc = 0 then { st with cc := st.ccImp % 16 } else st
  let length := if st.length = 0 then 12 + st.cc * 4 + st.pl + st.extPl else st.length
  (length, (List.range length).map (fun o =>
    if o < 12 then (rtpHeaderBytes st).getD o 0 else bufGet st.buf o))

/-- `strtok(text, " ")` tokenization: maximal runs of non-space characters
(the delimiter set is the single space). -/
def tokenize (text : List Char) : List (List Char) :=
  (text.splitOn ' ').filter (fun t => t ≠ [])

/-- The `rtp` token loop over an explicit token list. -/
def rtpToks (le : Bool) (toks : List (List Char)) : RtpSt :=
  toks.foldl (rtpTok le) {}

/-- `rtp` from rtpsend.c: serialize one RTP packet from the description text,
returning the length and the emitted bytes. -/
def rtp (le : Bool) (text : List Char) : Nat × List Nat :=
  rtpFinish (rtpToks le (tokenize text))

/-- `%ld` of `sscanf`: skip whitespace, optional sign, at least one decimal
digit; returns the value and the rest of the text. -/
def scanLong (s : List Char) : Option (Int × List Char) :=
  let s1 := s.dropWhile isSpaceC
  let (neg, s2) :=
    match s1 with
    | '-' :: r => (true, r)
    | '+' :: r => (false, r)
    | _ => (false, s1)
  let ds := s2.takeWhile Char.isDigit
  if ds = [] then none
  else
    let v : Int := (digitsVal 10 ds 0 : Nat)
    some (if neg then -v else v, s2.drop ds.length)

/-- `sscanf(text, "%ld.%ld %s", ...)` returning 3: seconds, the digits after
the dot, and the type name (the first whitespace-delimited word after). -/
def scanTime (text : List Char) : Option (Int × Int × List Char) :=
  match scanLong text with
  | none => none
  | some (sec, r1) =>
    match r1 with
    | '.' :: r2 =>
      match scanLong r2 with
      | none => none
      | some (usec, r3) =>
        let tn := (r3.dropWhile isSpaceC).takeWhile (fun c => !isSpaceC c)
        if tn = [] then none else some (sec, usec, tn)
    | _ => none

/-- `strstr(hay, needle)` advanced past the needle: the text following the
first occurrence. -/
def strstrAfter (hay needle : List Char) : Option (List Char) :=
  if needle.isPrefixOf hay then some (hay.drop needle.length)
  else
    match hay with
    | [] => none
    | _ :: t => strstrAfter t needle

/-- `generate`: parse the script line's time and type, then serialize via
`rtp` or `rtcp`.  Result: `(tv_sec, tv_usec, type, length, bytes)` with
type 0 = data (socket 0), 1 = control (socket 1); the fatal `exit(2)` paths
are the error case. -/
def generate (ns nu : Nat) (le : Bool) (text : List Char) :
    Except (List Char) (Int × Int × Nat × Nat × List Nat) :=
  match scanTime text with
  | none => .error ("Line is invalid".data)
  | some (sec, usec, tn) =>
    if tn = "RTP".data then
      let r := rtp le ((strstrAfter text "RTP".data).getD [])
      .ok (sec, usec, 0, r.1, r.2)
    else if tn = "RTCP".data then
      match rtcp ns nu ((strstrAfter text "RTCP".data).getD []) with
      | .ok r => .ok (sec, usec, 1, r.1, r.2)
      | .error e => .error e
    else .error ("Type is not supported".data)

/-- The pacing loop of `send_handler` under an exact one-shot timer: `base`
is the base time captured on the first packet, `now` the wall clock at the
tick that parses this packet (equal to the previous packet's send time); each
packet is sent at the armed deadline `base + t`, except that a deadline in
the past warns and is replaced by `now` (timeval arithmetic in total
microseconds; `past_tv.tv_sec < 0` after `timersub` is exactly
`next < now`).  Produces, in file order, each packet's send time and whether
the non-monotonic warning fired. -/
def pacerRun (base : Int) : Int → List Int → List (Int × Bool)
  | _, [] => []
  | now, t :: ts =>
    if base + t < now then (now, true) :: pacerRun base now ts
    else (base + t, false) :: pacerRun base (base + t) ts

/-- The whole pacer: the first packet anchors `basetime = w0 - t₁` and is
sent immediately (at `w0`). -/
def pacer (w0 : Int) (ts : List Int) : List (Int × Bool) :=
  match ts with
  | [] => []
  | t1 :: _ => pacerRun (w0 - t1) w0 ts

/-- A script line's time in total microseconds, as `generate` stores it into
the `timeval` (`tv_sec` seconds plus the digits after the dot as `tv_usec`). -/
def lineMicros (text : List Char) : Option Int :=
  (scanTime text).map (fun r => r.1 * 1000000 + r.2.1)

/-- A node that is a leaf whose type is outside `names`. -/
def leafOutside (names : List (List Char)) : Node → Bool
  | .leaf ty _ _ => !names.contains ty
  | .group _ => false

/-- A report-block child (a typed-less node) containing a leaf the block
serializer `rtcp_rr` does not recognize. -/
def srBlockBad : Node → Bool
  | .group children =>
    children.any (leafOutside ["ssrc".data, "fraction".data, "lost".data,
      "last_seq".data, "jit".data, "lsr".data, "dlsr".data])
  | .leaf _ _ _ => false

/-- The record-level leaf names each record serializer recognizes. -/
def recordLeafNames (k : List Char) : List (List Char) :=
  if k = "SDES".data then ["SDES".data, "p".data, "count".data, "len".data]
  else if k = "RR".data then ["RR".data, "ssrc".data, "p".data, "count".data, "len".data]
  else if k = "SR".data then ["SR".data, "ssrc".data, "p".data, "count".data, "len".data,
    "ntp".data, "ts".data, "psent".data, "osent".data]
  else if k = "BYE".data then ["BYE".data, "p".data, "count".data, "len".data]
  else []

/-- The conditions under which serializing one record calls `exit(2)`:
no recognized record name; a record-level leaf the serializer rejects; or,
for SR and RR, a report block with a leaf `rtcp_rr` rejects. -/
def recordFatal (list : List Node) : Bool :=
  match rtcpKind list with
  | none => true
  | some k =>
    if k = "APP".data then false
    else
      list.any (leafOutside (recordLeafNames k)) ||
      ((k = "RR".data || k = "SR".data) && list.any srBlockBad)

/-- Fatal conditions of a whole compound RTCP description. -/
def rtcpFatal (nodes : List Node) : Bool :=
  nodes.any (fun n =>
    match n with
    | .group (c :: cs) => recordFatal (c :: cs)
    | _ => false)

/-- The complete fatal-parse condition of `generate`. -/
def generateFatal (text : List Char) : Bool :=
  match scanTime text with
  | none => true
  | some (_, _, tn) =>
    if tn = "RTP".data then false
    else if tn = "RTCP".data then
      rtcpFatal (parse ((strstrAfter text "RTCP".data).getD []))
    else true

/-- The fatal conditions exactly as claim C7 enumerates them (this definition
follows the claim's words, for comparison with the code): unparseable time or
missing type name; a type other than RTP/RTCP; a processed RTCP record whose
tree names no known record type; or a record-level leaf key the record does
not recognize.  (It omits report-block-level leaves.) -/
def claimedFatalCond (text : List Char) : Bool :=
  match scanTime text with
  | none => true
  | some (_, _, tn) =>
    if tn = "RTP".data then false
    else if tn = "RTCP".data then
      (parse ((strstrAfter text "RTCP".data).getD [])).any (fun n =>
        match n with
        | .group (c :: cs) =>
          match rtcpKind (c :: cs) with
          | none => true
          | some k => k ≠ "APP".data && (c :: cs).any (leafOutside (recordLeafNames k))
        | _ => false)
    else true

/-- `Except` success as a Boolean. -/
def isOkE {ε α : Type} : Except ε α → Bool
  | .ok _ => true
  | .error _ => false

/-- A token made only of plain characters: no whitespace, parentheses or
quotes — the characters of a `name=value` leaf. -/
def plainTok (cs : List Char) : Bool :=
  cs.all (fun c => !isSpaceC c && c != '(' && c != ')' && c != '"')

/-- No leaf node of the list has type `name`. -/
def noLeafNamed (name : List Char) (l : List Node) : Bool :=
  l.all (fun n =>
    match n with
    | .leaf ty _ _ => ty != name
    | .group _ => true)

/-- No token of the list has `parse_uint` name `name`. -/
def noTokNamed (name : List Char) (toks : List (List Char)) : Bool :=
  toks.all (fun t => tokName t != name)

section Theorems

/-! ## Supporting lemmas -/

/-- Masking with `0xfffc` (the SDES chunk padding) clears the two low bits. -/
theorem and_fffc_mod4 (a : Nat) : (a &&& 0xfffc) % 4 = 0 := by
  have h1 : (a &&& 65532) % 4 = (a &&& 65532) &&& 3 := by
    have := Nat.and_pow_two_sub_one_eq_mod (a &&& 65532) 2
    simpa using this.symm
  have h2 : a &&& 65532 &&& 3 = a &&& (65532 &&& 3) := Nat.and_assoc a 65532 3
  have h3 : (65532 &&& 3 : Nat) = 0 := by decide
  show (a &&& 65532) % 4 = 0
  rw [h1, h2, h3, Nat.and_zero]

/-- Plain characters at level 0 outside string mode are only accumulated into
the token buffer; no node is emitted. -/
theorem parseAuxG_plain (rec : List Char → List Node) (cs : List Char) :
    plainTok cs = true →
    ∀ rest tmp acc, parseAuxG rec (cs ++ rest) false 0 tmp acc =
      parseAuxG rec rest false 0 (tmp ++ cs) acc := by
  induction cs with
  | nil => intro _ rest tmp acc; simp
  | cons a cs ih =>
    intro h rest tmp acc
    simp only [plainTok, List.all_cons, Bool.and_eq_true] at h
    obtain ⟨ha, hcs⟩ := h
    simp only [Bool.and_eq_true, Bool.not_eq_true', bne_iff_ne, ne_eq] at ha
    have hsp : isSpaceC a = false := ha.1.1.1
    have hb1 : (a == '(') = false := by
      simpa using ha.1.1.2
    have hb2 : (a == ')') = false := by
      simpa using ha.1.2
    have hb3 : (a == '"') = false := by
      simpa using ha.2
    rw [List.cons_append]
    show parseAuxG rec (a :: (cs ++ rest)) false 0 tmp acc = _
    simp only [parseAuxG, hb1, hb2, hb3, hsp, Bool.false_eq_true, if_false,
      show ¬((0 : Int) ≥ 1) by omega, show ((0 : Int) > 0) = False by simp]
    rw [ih (by simpa [plainTok] using hcs) rest (tmp ++ [a]) acc]
    simp

/-! ## Claim C4 -/

/-- C4: in the RTCP tree parser, a leaf token at nesting level 0 is emitted
as a node only when a whitespace character follows it; a trailing
`name=value` token at the end of the parsed text produces no node: a text
that is one plain token parses to the empty node list (in particular
`parse "ssrc=0x1" = []`), while the same token followed by a space yields the
leaf.  Consequently the final leaf of a parenthesized group, whose
accumulated group text never ends in whitespace, is silently dropped:
`parse "(a=1 b=2)"` keeps only the `a=1` leaf. -/
theorem C4_trailing_leaf_dropped (cs : List Char) (h1 : cs ≠ [])
    (h2 : plainTok cs = true) :
    parse cs = [] ∧ parse (cs ++ [' ']) = [mkLeaf cs] ∧
    parse "ssrc=0x1".data = [] ∧
    parse "(a=1 b=2)".data = [Node.group [Node.leaf "a".data 1 none]] := by
  refine ⟨?_, ?_, by rfl, by rfl⟩
  · have h := parseAuxG_plain (parseF cs.length) cs h2 [] [] []
    simp only [List.append_nil, List.nil_append] at h
    show parseAuxG (parseF cs.length) cs false 0 [] [] = []
    rw [h]
    rfl
  · show parseF ((cs ++ [' ']).length + 1) (cs ++ [' ']) = [mkLeaf cs]
    have hlen : (cs ++ [' ']).length + 1 = cs.length + 1 + 1 := by simp
    rw [hlen]
    show parseAuxG (parseF (cs.length + 1)) (cs ++ [' ']) false 0 [] [] = [mkLeaf cs]
    rw [parseAuxG_plain (parseF (cs.length + 1)) cs h2 [' '] [] []]
    have hne : (cs == []) = false := by simpa using h1
    simp [parseAuxG, hne, isSpaceC]

/-- Witness for C4 at the concrete token `x=1`. -/
theorem C4_trailing_leaf_dropped_witness :
    parse "x=1".data = [] ∧ parse ("x=1".data ++ [' ']) = [mkLeaf "x=1".data] ∧
    parse "ssrc=0x1".data = [] ∧
    parse "(a=1 b=2)".data = [Node.group [Node.leaf "a".data 1 none]] :=
  C4_trailing_leaf_dropped "x=1".data (by decide) (by decide)

/-! ## Claim C1 -/

/-- C1 (evaluation of the code at the claim's input): for the script line
`0.0 RTCP (SDES (src=0xA cname="x"))` the code emits a 12-byte record
`81 CA 00 02 | 00 00 00 0A | 00 00 00 00` classified as control (type 1):
the `cname="x"` leaf — the last token of its group — is dropped by the
parser, so the chunk holds only the SRC word, the end marker and padding,
and the length field is 2.  The claim's expected 16 bytes with the
`01 01 78 00` item and length field 3 do not appear. -/
theorem C1_sdes_line_eval (ns nu : Nat) (le : Bool) :
    generate ns nu le "0.0 RTCP (SDES (src=0xA cname=\"x\"))\n".data =
      .ok (0, 0, 1, 12, [0x81, 0xCA, 0x00, 0x02, 0x00, 0x00, 0x00, 0x0A,
        0x00, 0x00, 0x00, 0x00]) := rfl

/-! ## Claim C5 -/

/-- C5: the script line
`0.0 RTP v=2 p=0 x=0 cc=0 m=0 pt=96 seq=1 ts=0 ssrc=0x11223344 data=AA`
serializes to exactly the 13 bytes `80 60 00 01 00 00 00 00 11 22 33 44 AA`
with returned length 13 and is classified as a data packet (type 0,
socket 0), on either host endianness and independent of the wall clock. -/
theorem C5_rtp_line_eval (ns nu : Nat) (le : Bool) :
    generate ns nu le
      "0.0 RTP v=2 p=0 x=0 cc=0 m=0 pt=96 seq=1 ts=0 ssrc=0x11223344 data=AA\n".data =
      .ok (0, 0, 0, 13, [0x80, 0x60, 0x00, 0x01, 0x00, 0x00, 0x00, 0x00,
        0x11, 0x22, 0x33, 0x44, 0xAA]) := by
  have h1 : generate ns nu le
      "0.0 RTP v=2 p=0 x=0 cc=0 m=0 pt=96 seq=1 ts=0 ssrc=0x11223344 data=AA\n".data =
      .ok (0, 0, 0,
        (rtp le " v=2 p=0 x=0 cc=0 m=0 pt=96 seq=1 ts=0 ssrc=0x11223344 data=AA\n".data).1,
        (rtp le " v=2 p=0 x=0 cc=0 m=0 pt=96 seq=1 ts=0 ssrc=0x11223344 data=AA\n".data).2) := rfl
  have h2 : rtp le " v=2 p=0 x=0 cc=0 m=0 pt=96 seq=1 ts=0 ssrc=0x11223344 data=AA\n".data =
      (13, [0x80, 0x60, 0x00, 0x01, 0x00, 0x00, 0x00, 0x00, 0x11, 0x22, 0x33, 0x44, 0xAA]) := by
    show rtpFinish (rtpToks le
      (tokenize " v=2 p=0 x=0 cc=0 m=0 pt=96 seq=1 ts=0 ssrc=0x11223344 data=AA\n".data)) = _
    rw [show rtpToks le
        (tokenize " v=2 p=0 x=0 cc=0 m=0 pt=96 seq=1 ts=0 ssrc=0x11223344 data=AA\n".data) =
        ({ version := 2, pt := 96, seq := 1, ssrc := 0x11223344, pl := 1,
           buf := [(12, 0xAA)] } : RtpSt) from rfl]
    rfl
  rw [h1, h2]

/-! ## Claim C9 -/

/-- C9 counterexample: the claim bounds the relative error of `usec2ntp`
against the exact fraction `usec * 2^32 / 10^6` by `3e-7`; at `usec = 1` the
code returns 4295 while the exact value is `4294.967296`, a relative error of
about `7.6e-6`.  (The inequality is the claim's bound cleared of
denominators: `10^7 * (10^6 * approx - 2^32 * usec) ≤ 3 * (2^32 * usec)`.) -/
theorem C9_relative_error_counterexample :
    usec2ntp 1 = 4295 ∧
    ¬(10 ^ 7 * (10 ^ 6 * usec2ntp 1 - 2 ^ 32 * 1) ≤ 3 * (2 ^ 32 * 1)) := by
  constructor
  · rfl
  · decide

/-- C9 amended: for every `usec < 10^6` the 32-bit wraparound computation
equals `((usec<<12) + (usec<<8) - ((usec*1825)>>5)) mod 2^32` (the
intermediate sum may exceed `2^32`, the wrapped result is still the integer
value), and the approximation overshoots the exact NTP fraction
`usec * 2^32 / 10^6` by an absolute error of at most
`46558953472 / (32·10^6)` fraction units, i.e. at most `3.4e-7` seconds (the
relative error, however, reaches `7.6e-6` at small `usec`). -/
theorem C9_usec2ntp_amended (u : Nat) (h : u < 10 ^ 6) :
    usec2ntp u = (((u <<< 12) + (u <<< 8)) - ((u * 1825) >>> 5)) % 2 ^ 32 ∧
    137438953472 * u ≤ 32000000 * usec2ntp u ∧
    32000000 * usec2ntp u ≤ 137438953472 * u + 46558953472 := by
  have hu : u % 2 ^ 32 = u := Nat.mod_eq_of_lt (by omega)
  have hq := Nat.div_add_mod (u * 1825) 32
  have hq2 : u * 1825 % 32 < 32 := Nat.mod_lt _ (by omega)
  have hval : usec2ntp u = 4352 * u - u * 1825 / 32 := by
    have c1 : u * 2 ^ 12 % 2 ^ 32 = u * 2 ^ 12 := Nat.mod_eq_of_lt (by omega)
    have c2 : u * 2 ^ 8 % 2 ^ 32 = u * 2 ^ 8 := Nat.mod_eq_of_lt (by omega)
    have c3 : u * 1825 % 2 ^ 32 = u * 1825 := Nat.mod_eq_of_lt (by omega)
    have hlt : u * 2 ^ 12 + u * 2 ^ 8 - u * 1825 / 32 < 2 ^ 32 := by omega
    simp only [usec2ntp, Nat.shiftLeft_eq, Nat.shiftRight_eq_div_pow, hu, c1, c2, c3]
    rw [show (2 : Nat) ^ 5 = 32 from rfl,
      show u * 2 ^ 12 + u * 2 ^ 8 + (2 ^ 32 - u * 1825 / 32)
          = (u * 2 ^ 12 + u * 2 ^ 8 - u * 1825 / 32) + 2 ^ 32 by omega,
      Nat.add_mod_right, Nat.mod_eq_of_lt hlt]
    omega
  rw [hval]
  simp only [Nat.shiftLeft_eq, Nat.shiftRight_eq_div_pow]
  omega

/-- Witness for C9 at `usec = 3`. -/
theorem C9_usec2ntp_amended_witness :
    usec2ntp 3 = (((3 <<< 12) + (3 <<< 8)) - ((3 * 1825) >>> 5)) % 2 ^ 32 ∧
    137438953472 * 3 ≤ 32000000 * usec2ntp 3 ∧
    32000000 * usec2ntp 3 ≤ 137438953472 * 3 + 46558953472 :=
  C9_usec2ntp_amended 3 (by decide)

/-! ## Claim C2 -/

/-- C2 counterexample: the claim says that for an RTP line with `csrcN=v`
tokens and no `cc=` token, each `v` lands in CSRC slot `N` (big-endian at
offset `12 + 4N`) and the CC field equals `max(N)+1`.  For the description
` csrc0=1 csrc1=2` the claim would require CC = 2 (first header byte `0x82`)
and the word at offset 16 to hold 2; the code computes the slot as
`atoi(&word[5])`, which is 0 for both tokens, raises the implicit `cc` only
to `max(k) = 0`, and so emits a 12-byte packet whose first byte is `0x80`
(CC = 0) with no CSRC words at all, on either host endianness. -/
theorem C2_csrc_counterexample :
    rtp true " csrc0=1 csrc1=2".data = (12, [0x80, 0, 0, 0, 0, 0, 0, 0, 0, 0, 0, 0]) ∧
    rtp false " csrc0=1 csrc1=2".data = (12, [0x80, 0, 0, 0, 0, 0, 0, 0, 0, 0, 0, 0]) := by
  constructor <;> rfl

/-- The `csrc` branch of the token loop for a token whose `parse_uint` name
is `csrc` plus one character (a single-digit `csrcN`): the slot index
`atoi(&word[5])` is 0, the value is stored at offset 12 (slot 0) in host
byte order without `htonl`, and the implicit CSRC count is not raised. -/
theorem rtpTok_csrc_slot0 (le : Bool) (st : RtpSt) (tok : List Char) (d : Char)
    (hname : tokName tok = ['c', 's', 'r', 'c', d])
    (hk : atoiInt ((tokBuf tok).drop 5) = 0) :
    rtpTok le st tok =
      { st with buf := writeBytes st.buf 12 (store32 le (tokValue tok)) } := by
  simp only [rtpTok, hname, hk]
  simp

/-- C2 amended: a `csrcN=v` token with single-digit `N` (name `csrc` plus one
character, so that `atoi(&word[5])` reads the empty string) writes `v` into
CSRC slot 0 — not slot `N` — in host byte order (no `htonl`), and when `cc=`
is absent the CC field stays at the maximum slot index written (here 0), not
`max(N)+1`, so the packet is the bare 12-byte header; with an explicit `cc=1`
the word at offset 12 carries the host-order value.  The last conjunct shows
the behaviour on the full description text ` cc=1 csrc7=258`. -/
theorem C2_csrc_amended (le : Bool) (tok : List Char) (d : Char)
    (hname : tokName tok = ['c', 's', 'r', 'c', d])
    (hk : atoiInt ((tokBuf tok).drop 5) = 0) :
    rtpFinish (rtpToks le [['c', 'c', '=', '1'], tok]) =
      (16, [0x81, 0, 0, 0, 0, 0, 0, 0, 0, 0, 0, 0] ++ store32 le (tokValue tok)) ∧
    rtpFinish (rtpToks le [tok]) = (12, [0x80, 0, 0, 0, 0, 0, 0, 0, 0, 0, 0, 0]) ∧
    rtp le " cc=1 csrc7=258".data =
      (16, [0x81, 0, 0, 0, 0, 0, 0, 0, 0, 0, 0, 0] ++ store32 le 258) := by
  refine ⟨?_, ?_, ?_⟩
  · show rtpFinish (rtpTok le (rtpTok le {} ['c', 'c', '=', '1']) tok) = _
    rw [show rtpTok le {} ['c', 'c', '=', '1'] = ({ cc := 1 } : RtpSt) from rfl,
      rtpTok_csrc_slot0 le _ tok d hname hk]
    cases le <;>
      simp [rtpFinish, store32, be32, writeBytes, bufGet, rtpHeaderBytes, be16,
        List.range_succ]
  · show rtpFinish (rtpTok le {} tok) = _
    rw [rtpTok_csrc_slot0 le _ tok d hname hk]
    cases le <;>
      simp [rtpFinish, store32, be32, writeBytes, bufGet, rtpHeaderBytes, be16,
        List.range_succ]
  · show rtpFinish (rtpToks le (tokenize " cc=1 csrc7=258".data)) = _
    rw [show tokenize " cc=1 csrc7=258".data =
        [['c', 'c', '=', '1'], ['c', 's', 'r', 'c', '7', '=', '2', '5', '8']] from rfl,
      show rtpToks le [['c', 'c', '=', '1'], ['c', 's', 'r', 'c', '7', '=', '2', '5', '8']] =
        rtpTok le (rtpTok le {} ['c', 'c', '=', '1'])
          ['c', 's', 'r', 'c', '7', '=', '2', '5', '8'] from rfl,
      show rtpTok le {} ['c', 'c', '=', '1'] = ({ cc := 1 } : RtpSt) from rfl,
      rtpTok_csrc_slot0 le _ _ '7' (by decide) (by decide),
      show tokValue ['c', 's', 'r', 'c', '7', '=', '2', '5', '8'] = 258 from by decide]
    cases le <;>
      simp [rtpFinish, store32, be32, writeBytes, bufGet, rtpHeaderBytes, be16,
        List.range_succ]

/-- Witness for C2's amended statement at the token `csrc3=258`. -/
theorem C2_csrc_amended_witness :
    rtpFinish (rtpToks true [['c', 'c', '=', '1'],
        ['c', 's', 'r', 'c', '3', '=', '2', '5', '8']]) =
      (16, [0x81, 0, 0, 0, 0, 0, 0, 0, 0, 0, 0, 0] ++
        store32 true (tokValue ['c', 's', 'r', 'c', '3', '=', '2', '5', '8'])) ∧
    rtpFinish (rtpToks true [['c', 's', 'r', 'c', '3', '=', '2', '5', '8']]) =
      (12, [0x80, 0, 0, 0, 0, 0, 0, 0, 0, 0, 0, 0]) ∧
    rtp true " cc=1 csrc7=258".data =
      (16, [0x81, 0, 0, 0, 0, 0, 0, 0, 0, 0, 0, 0] ++ store32 true 258) :=
  C2_csrc_amended true ['c', 's', 'r', 'c', '3', '=', '2', '5', '8'] '3'
    (by decide) (by decide)

/-! ## Claim C6 -/

/-- The armed deadlines of the pacing loop never precede the tick that arms
them, so the send times are non-decreasing from `now` on. -/
theorem pacerRun_chain (base : Int) (ts : List Int) :
    ∀ now, List.Chain' (· ≤ ·) (now :: (pacerRun base now ts).map Prod.fst) := by
  induction ts with
  | nil => intro now; simp [pacerRun]
  | cons t ts ih =>
    intro now
    by_cases h : base + t < now
    · simp only [pacerRun, if_pos h, List.map_cons]
      exact List.chain'_cons.mpr ⟨le_refl now, ih now⟩
    · simp only [pacerRun, if_neg h, List.map_cons]
      exact List.chain'_cons.mpr ⟨by omega, ih (base + t)⟩

/-- Every script line yields exactly one transmission. -/
theorem pacerRun_length (base : Int) (ts : List Int) :
    ∀ now, (pacerRun base now ts).length = ts.length := by
  induction ts with
  | nil => intro _; rfl
  | cons t ts ih =>
    intro now
    by_cases h : base + t < now <;> simp [pacerRun, h, ih]

/-- C6: packets are transmitted in script (file) order — the pacer emits one
send per script line, in list order, at non-decreasing wall-clock times; a
deadline in the past warns and is replaced by the current time rather than
reordering.  For the script `0.0 / 1.0 / 0.5` (times as `sscanf "%ld.%ld"`
reads them: 0, 1000000 and 5 microseconds), the three sends happen in file
order at `w0`, `w0 + 1s`, `w0 + 1s`: the third fires the non-monotonic
warning and goes out immediately after the second. -/
theorem C6_script_order_pacing (w0 : Int) :
    (∀ ts : List Int, List.Chain' (· ≤ ·) ((pacer w0 ts).map Prod.fst) ∧
      (pacer w0 ts).length = ts.length) ∧
    lineMicros "0.0 RTP seq=1\n".data = some 0 ∧
    lineMicros "1.0 RTP seq=2\n".data = some 1000000 ∧
    lineMicros "0.5 RTP seq=3\n".data = some 5 ∧
    pacer w0 [0, 1000000, 5] =
      [(w0, false), (w0 + 1000000, false), (w0 + 1000000, true)] := by
  refine ⟨fun ts => ⟨?_, ?_⟩, by rfl, by rfl, by rfl, ?_⟩
  · cases ts with
    | nil => simp [pacer]
    | cons t1 ts' => exact (pacerRun_chain (w0 - t1) (t1 :: ts') w0).tail
  · cases ts with
    | nil => rfl
    | cons t1 ts' => exact pacerRun_length (w0 - t1) (t1 :: ts') w0
  · show pacerRun (w0 - 0) w0 [0, 1000000, 5] = _
    norm_num [pacerRun]

/-! ## Claim C3 -/

theorem sdesLoop_total (l : List Node) :
    ∀ st st', sdesLoop l st = .ok st' → st.total % 4 = 0 → 4 ≤ st.total →
      st'.total % 4 = 0 ∧ 4 ≤ st'.total := by
  induction l with
  | nil =>
    intro st st' h h4 hge
    cases h
    exact ⟨h4, hge⟩
  | cons n rest ih =>
    intro st st' h h4 hge
    cases n with
    | group children =>
      have h' : sdesLoop rest
          { st with body := st.body ++ (rtcp_sdes children).2,
                    total := st.total + (rtcp_sdes children).1,
                    cnt := st.cnt + 1 } = .ok st' := h
      refine ih _ _ h' ?_ ?_
      · show (st.total + (rtcp_sdes children).1) % 4 = 0
        have hadv : (rtcp_sdes children).1 =
            ((sdesChunkLoop children {}).total + 1 + 3) &&& 0xfffc := rfl
        have := and_fffc_mod4 ((sdesChunkLoop children {}).total + 1 + 3)
        omega
      · show 4 ≤ st.total + (rtcp_sdes children).1
        omega
    | leaf ty num str =>
      simp only [sdesLoop] at h
      split_ifs at h with hc1 hc2 hc3 hc4
      · exact ih st st' h h4 hge
      · exact ih { st with p := num % 2 } st' h h4 hge
      · exact ih { st with countF := num % 32 } st' h h4 hge
      · exact ih { st with lengthF := num % 2 ^ 16 } st' h h4 hge

theorem sdesLoop_lengthF (l : List Node) :
    ∀ st st', sdesLoop l st = .ok st' → noLeafNamed "len".data l = true →
      st'.lengthF = st.lengthF := by
  induction l with
  | nil =>
    intro st st' h _
    cases h
    rfl
  | cons n rest ih =>
    intro st st' h hl
    simp only [noLeafNamed, List.all_cons, Bool.and_eq_true] at hl
    have hl2 : noLeafNamed "len".data rest = true := hl.2
    cases n with
    | group children =>
      have h' : sdesLoop rest
          { st with body := st.body ++ (rtcp_sdes children).2,
                    total := st.total + (rtcp_sdes children).1,
                    cnt := st.cnt + 1 } = .ok st' := h
      have h2 := ih _ _ h' hl2
      exact h2
    | leaf ty num str =>
      have hne : ty ≠ "len".data := by simpa using hl.1
      simp only [sdesLoop] at h
      split_ifs at h with hc1 hc2 hc3
      · exact ih st st' h hl2
      · exact ih { st with p := num % 2 } st' h hl2
      · exact ih { st with countF := num % 32 } st' h hl2

theorem rtcp_rr_fst (l : List Node) (r : Nat × List Nat) (h : rtcp_rr l = .ok r) :
    r.1 = 24 := by
  unfold rtcp_rr at h
  cases hb : rrBlockLoop l {} with
  | error e => rw [hb] at h; cases h
  | ok st =>
    rw [hb] at h
    have h2 : Except.ok ((24 : Nat), be32 st.ssrc ++ [st.fraction % 256] ++ be24 st.lost ++
        be32 st.last_seq ++ be32 st.jitter ++ be32 st.lsr ++ be32 st.dlsr) = Except.ok r := h
    cases h2
    rfl

theorem srLoop_total (l : List Node) :
    ∀ st st', srLoop l st = .ok st' → st.total % 4 = 0 → 4 ≤ st.total →
      st'.total % 4 = 0 ∧ 4 ≤ st'.total := by
  induction l with
  | nil =>
    intro st st' h h4 hge
    cases h
    exact ⟨h4, hge⟩
  | cons n rest ih =>
    intro st st' h h4 hge
    cases n with
    | group children =>
      cases hr : rtcp_rr children with
      | error e =>
        have h' : (Except.error e : Except (List Char) WSrSt) = Except.ok st' := by
          rw [show srLoop (Node.group children :: rest) st =
            Except.bind (rtcp_rr children) (fun r => srLoop rest
              { st with body := st.body ++ r.2, total := st.total + r.1,
                        cnt := st.cnt + 1 }) from rfl, hr] at h
          exact h
        cases h'
      | ok r =>
        have h' : srLoop rest
            { st with body := st.body ++ r.2, total := st.total + r.1,
                      cnt := st.cnt + 1 } = .ok st' := by
          rw [show srLoop (Node.group children :: rest) st =
            Except.bind (rtcp_rr children) (fun r => srLoop rest
              { st with body := st.body ++ r.2, total := st.total + r.1,
                        cnt := st.cnt + 1 }) from rfl, hr] at h
          exact h
        have h24 := rtcp_rr_fst children r hr
        refine ih _ _ h' ?_ ?_
        · show (st.total + r.1) % 4 = 0
          omega
        · show 4 ≤ st.total + r.1
          omega
    | leaf ty num str =>
      simp only [srLoop] at h
      split_ifs at h with hc1 hc2 hc3 hc4 hc5 hc6 hc7 hc8 hc9
      · exact ih st st' h h4 hge
      · exact ih { st with ssrc := num % 2 ^ 32 } st' h h4 hge
      · exact ih { st with p := num % 2 } st' h h4 hge
      · exact ih { st with countF := num % 32 } st' h h4 hge
      · exact ih { st with lengthF := num % 2 ^ 16 } st' h h4 hge
      · exact ih { st with ntp_sec := num % 2 ^ 32 } st' h h4 hge
      · exact ih { st with rtp_ts := num % 2 ^ 32 } st' h h4 hge
      · exact ih { st with psent := num % 2 ^ 32 } st' h h4 hge
      · exact ih { st with osent := num % 2 ^ 32 } st' h h4 hge

theorem srLoop_lengthF (l : List Node) :
    ∀ st st', srLoop l st = .ok st' → noLeafNamed "len".data l = true →
      st'.lengthF = st.lengthF := by
  induction l with
  | nil =>
    intro st st' h _
    cases h
    rfl
  | cons n rest ih =>
    intro st st' h hl
    simp only [noLeafNamed, List.all_cons, Bool.and_eq_true] at hl
    have hl2 : noLeafNamed "len".data rest = true := hl.2
    cases n with
    | group children =>
      cases hr : rtcp_rr children with
      | error e =>
        have h' : (Except.error e : Except (List Char) WSrSt) = Except.ok st' := by
          rw [show srLoop (Node.group children :: rest) st =
            Except.bind (rtcp_rr children) (fun r => srLoop rest
              { st with body := st.body ++ r.2, total := st.total + r.1,
                        cnt := st.cnt + 1 }) from rfl, hr] at h
          exact h
        cases h'
      | ok r =>
        have h' : srLoop rest
            { st with body := st.body ++ r.2, total := st.total + r.1,
                      cnt := st.cnt + 1 } = .ok st' := by
          rw [show srLoop (Node.group children :: rest) st =
            Except.bind (rtcp_rr children) (fun r => srLoop rest
              { st with body := st.body ++ r.2, total := st.total + r.1,
                        cnt := st.cnt + 1 }) from rfl, hr] at h
          exact h
        have h2 := ih _ _ h' hl2
        exact h2
    | leaf ty num str =>
      have hne : ty ≠ "len".data := by simpa using hl.1
      simp only [srLoop] at h
      split_ifs at h with hc1 hc2 hc3 hc4 hc5 hc6 hc7 hc8
      · exact ih st st' h hl2
      · exact ih { st with ssrc := num % 2 ^ 32 } st' h hl2
      · exact ih { st with p := num % 2 } st' h hl2
      · exact ih { st with countF := num % 32 } st' h hl2
      · exact ih { st with ntp_sec := num % 2 ^ 32 } st' h hl2
      · exact ih { st with rtp_ts := num % 2 ^ 32 } st' h hl2
      · exact ih { st with psent := num % 2 ^ 32 } st' h hl2
      · exact ih { st with osent := num % 2 ^ 32 } st' h hl2

theorem rrLoop_total (l : List Node) :
    ∀ st st', rrLoop l st = .ok st' → st.total % 4 = 0 → 4 ≤ st.total →
      st'.total % 4 = 0 ∧ 4 ≤ st'.total := by
  induction l with
  | nil =>
    intro st st' h h4 hge
    cases h
    exact ⟨h4, hge⟩
  | cons n rest ih =>
    intro st st' h h4 hge
    cases n with
    | group children =>
      cases hr : rtcp_rr children with
      | error e =>
        have h' : (Except.error e : Except (List Char) WRrSt) = Except.ok st' := by
          rw [show rrLoop (Node.group children :: rest) st =
            Except.bind (rtcp_rr children) (fun r => rrLoop rest
              { st with body := st.body ++ r.2, total := st.total + r.1,
                        cnt := st.cnt + 1 }) from rfl, hr] at h
          exact h
        cases h'
      | ok r =>
        have h' : rrLoop rest
            { st with body := st.body ++ r.2, total := st.total + r.1,
                      cnt := st.cnt + 1 } = .ok st' := by
          rw [show rrLoop (Node.group children :: rest) st =
            Except.bind (rtcp_rr children) (fun r => rrLoop rest
              { st with body := st.body ++ r.2, total := st.total + r.1,
                        cnt := st.cnt + 1 }) from rfl, hr] at h
          exact h
        have h24 := rtcp_rr_fst children r hr
        refine ih _ _ h' ?_ ?_
        · show (st.total + r.1) % 4 = 0
          omega
        · show 4 ≤ st.total + r.1
          omega
    | leaf ty num str =>
      simp only [rrLoop] at h
      split_ifs at h with hc1 hc2 hc3 hc4 hc5
      · exact ih st st' h h4 hge
      · exact ih { st with ssrc := num % 2 ^ 32 } st' h h4 hge
      · exact ih { st with p := num % 2 } st' h h4 hge
      · exact ih { st with countF := num % 32 } st' h h4 hge
      · exact ih { st with lengthF := num % 2 ^ 16 } st' h h4 hge

theorem rrLoop_lengthF (l : List Node) :
    ∀ st st', rrLoop l st = .ok st' → noLeafNamed "len".data l = true →
      st'.lengthF = st.lengthF := by
  induction l with
  | nil =>
    intro st st' h _
    cases h
    rfl
  | cons n rest ih =>
    intro st st' h hl
    simp only [noLeafNamed, List.all_cons, Bool.and_eq_true] at hl
    have hl2 : noLeafNamed "len".data rest = true := hl.2
    cases n with
    | group children =>
      cases hr : rtcp_rr children with
      | error e =>
        have h' : (Except.error e : Except (List Char) WRrSt) = Except.ok st' := by
          rw [show rrLoop (Node.group children :: rest) st =
            Except.bind (rtcp_rr children) (fun r => rrLoop rest
              { st with body := st.body ++ r.2, total := st.total + r.1,
                        cnt := st.cnt + 1 }) from rfl, hr] at h
          exact h
        cases h'
      | ok r =>
        have h' : rrLoop rest
            { st with body := st.body ++ r.2, total := st.total + r.1,
                      cnt := st.cnt + 1 } = .ok st' := by
          rw [show rrLoop (Node.group children :: rest) st =
            Except.bind (rtcp_rr children) (fun r => rrLoop rest
              { st with body := st.body ++ r.2, total := st.total + r.1,
                        cnt := st.cnt + 1 }) from rfl, hr] at h
          exact h
        have h2 := ih _ _ h' hl2
        exact h2
    | leaf ty num str =>
      have hne : ty ≠ "len".data := by simpa using hl.1
      simp only [rrLoop] at h
      split_ifs at h with hc1 hc2 hc3 hc4
      · exact ih st st' h hl2
      · exact ih { st with ssrc := num % 2 ^ 32 } st' h hl2
      · exact ih { st with p := num % 2 } st' h hl2
      · exact ih { st with countF := num % 32 } st' h hl2

theorem byeLoop_total (l : List Node) :
    ∀ st st', byeLoop l st = .ok st' → st.total % 4 = 0 → 4 ≤ st.total →
      st'.total % 4 = 0 ∧ 4 ≤ st'.total := by
  induction l with
  | nil =>
    intro st st' h h4 hge
    cases h
    exact ⟨h4, hge⟩
  | cons n rest ih =>
    intro st st' h h4 hge
    cases n with
    | group children =>
      have h' : byeLoop rest
          { st with body := st.body ++ (rtcp_bye children).2,
                    total := st.total + (rtcp_bye children).1,
                    cnt := st.cnt + 1 } = .ok st' := h
      refine ih _ _ h' ?_ ?_
      · show (st.total + (rtcp_bye children).1) % 4 = 0
        have hadv : (rtcp_bye children).1 = 4 := rfl
        omega
      · show 4 ≤ st.total + (rtcp_bye children).1
        omega
    | leaf ty num str =>
      simp only [byeLoop] at h
      split_ifs at h with hc1 hc2 hc3 hc4
      · exact ih st st' h h4 hge
      · exact ih { st with p := num % 2 } st' h h4 hge
      · exact ih { st with countF := num % 32 } st' h h4 hge
      · exact ih { st with lengthF := num % 2 ^ 16 } st' h h4 hge

theorem byeLoop_lengthF (l : List Node) :
    ∀ st st', byeLoop l st = .ok st' → noLeafNamed "len".data l = true →
      st'.lengthF = st.lengthF := by
  induction l with
  | nil =>
    intro st st' h _
    cases h
    rfl
  | cons n rest ih =>
    intro st st' h hl
    simp only [noLeafNamed, List.all_cons, Bool.and_eq_true] at hl
    have hl2 : noLeafNamed "len".data rest = true := hl.2
    cases n with
    | group children =>
      have h' : byeLoop rest
          { st with body := st.body ++ (rtcp_bye children).2,
                    total := st.total + (rtcp_bye children).1,
                    cnt := st.cnt + 1 } = .ok st' := h
      have h2 := ih _ _ h' hl2
      exact h2
    | leaf ty num str =>
      have hne : ty ≠ "len".data := by simpa using hl.1
      simp only [byeLoop] at h
      split_ifs at h with hc1 hc2 hc3
      · exact ih st st' h hl2
      · exact ih { st with p := num % 2 } st' h hl2
      · exact ih { st with countF := num % 32 } st' h hl2

theorem rtcp_write_sdes_ok (l : List Node) (t : Nat) (bs : List Nat)
    (h : rtcp_write_sdes l = .ok (t, bs)) :
    ∃ st, sdesLoop l {} = .ok st ∧ t = st.total ∧
      bs = commonHdr st.p (if st.countF = 0 then st.cnt % 32 else st.countF) 202
        (if st.lengthF = 0 then (st.total - 4) / 4 % 2 ^ 16 else st.lengthF) ++ st.body := by
  unfold rtcp_write_sdes at h
  cases hs : sdesLoop l {} with
  | error e => rw [hs] at h; cases h
  | ok st =>
    rw [hs] at h
    have h2 : Except.ok (st.total,
        commonHdr st.p (if st.countF = 0 then st.cnt % 32 else st.countF) 202
          (if st.lengthF = 0 then (st.total - 4) / 4 % 2 ^ 16 else st.lengthF) ++ st.body) =
        Except.ok (t, bs) := h
    simp only [Except.ok.injEq, Prod.mk.injEq] at h2
    exact ⟨st, rfl, h2.1.symm, h2.2.symm⟩

theorem rtcp_write_sdes_len_inv (l : List Node) (t : Nat) (bs : List Nat)
    (h : rtcp_write_sdes l = .ok (t, bs)) :
    t % 4 = 0 ∧ 4 ≤ t ∧
      (noLeafNamed "len".data l = true → (bs.drop 2).take 2 = be16 (t / 4 - 1)) := by
  obtain ⟨st, hs, ht, hbs⟩ := rtcp_write_sdes_ok l t bs h
  have htot := sdesLoop_total l {} st hs (by decide) (by decide)
  refine ⟨by omega, by omega, ?_⟩
  intro hl
  have hlen0 : st.lengthF = 0 := sdesLoop_lengthF l {} st hs hl
  subst ht
  subst hbs
  rw [hlen0]
  simp [commonHdr, be16]
  omega

theorem rtcp_write_sr_ok (ns nu : Nat) (l : List Node) (t : Nat) (bs : List Nat)
    (h : rtcp_write_sr ns nu l = .ok (t, bs)) :
    ∃ st, srLoop l (srInit ns nu) = .ok st ∧ t = st.total ∧
      bs = commonHdr st.p (if st.countF = 0 then st.cnt % 32 else st.countF) 200
        (if st.lengthF = 0 then (st.total - 4) / 4 % 2 ^ 16 else st.lengthF) ++ be32 st.ssrc ++ be32 st.ntp_sec ++ be32 st.ntp_frac ++ be32 st.rtp_ts ++ be32 st.psent ++ be32 st.osent ++ st.body := by
  unfold rtcp_write_sr at h
  cases hs : srLoop l (srInit ns nu) with
  | error e => rw [hs] at h; cases h
  | ok st =>
    rw [hs] at h
    have h2 : Except.ok (st.total,
        commonHdr st.p (if st.countF = 0 then st.cnt % 32 else st.countF) 200
          (if st.lengthF = 0 then (st.total - 4) / 4 % 2 ^ 16 else st.lengthF) ++ be32 st.ssrc ++ be32 st.ntp_sec ++ be32 st.ntp_frac ++ be32 st.rtp_ts ++ be32 st.psent ++ be32 st.osent ++ st.body) =
        Except.ok (t, bs) := h
    simp only [Except.ok.injEq, Prod.mk.injEq] at h2
    exact ⟨st, rfl, h2.1.symm, h2.2.symm⟩

theorem rtcp_write_sr_len_inv (ns nu : Nat) (l : List Node) (t : Nat) (bs : List Nat)
    (h : rtcp_write_sr ns nu l = .ok (t, bs)) :
    t % 4 = 0 ∧ 4 ≤ t ∧
      (noLeafNamed "len".data l = true → (bs.drop 2).take 2 = be16 (t / 4 - 1)) := by
  obtain ⟨st, hs, ht, hbs⟩ := rtcp_write_sr_ok ns nu l t bs h
  have htot := srLoop_total l (srInit ns nu) st hs (by norm_num [srInit]) (by norm_num [srInit])
  refine ⟨by omega, by omega, ?_⟩
  intro hl
  have hlen0 : st.lengthF = 0 := srLoop_lengthF l (srInit ns nu) st hs hl
  subst ht
  subst hbs
  rw [hlen0]
  simp [commonHdr, be16]
  omega


theorem rtcp_write_rr_ok (l : List Node) (t : Nat) (bs : List Nat)
    (h : rtcp_write_rr l = .ok (t, bs)) :
    ∃ st, rrLoop l {} = .ok st ∧ t = st.total ∧
      bs = commonHdr st.p (if st.countF = 0 then st.cnt % 32 else st.countF) 201
        (if st.lengthF = 0 then (st.total - 4) / 4 % 2 ^ 16 else st.lengthF) ++ be32 st.ssrc ++ st.body := by
  unfold rtcp_write_rr at h
  cases hs : rrLoop l {} with
  | error e => rw [hs] at h; cases h
  | ok st =>
    rw [hs] at h
    have h2 : Except.ok (st.total,
        commonHdr st.p (if st.countF = 0 then st.cnt % 32 else st.countF) 201
          (if st.lengthF = 0 then (st.total - 4) / 4 % 2 ^ 16 else st.lengthF) ++ be32 st.ssrc ++ st.body) =
        Except.ok (t, bs) := h
    simp only [Except.ok.injEq, Prod.mk.injEq] at h2
    exact ⟨st, rfl, h2.1.symm, h2.2.symm⟩

theorem rtcp_write_rr_len_inv (l : List Node) (t : Nat) (bs : List Nat)
    (h : rtcp_write_rr l = .ok (t, bs)) :
    t % 4 = 0 ∧ 4 ≤ t ∧
      (noLeafNamed "len".data l = true → (bs.drop 2).take 2 = be16 (t / 4 - 1)) := by
  obtain ⟨st, hs, ht, hbs⟩ := rtcp_write_rr_ok l t bs h
  have htot := rrLoop_total l {} st hs (by rfl) (by norm_num)
  refine ⟨by omega, by omega, ?_⟩
  intro hl
  have hlen0 : st.lengthF = 0 := rrLoop_lengthF l {} st hs hl
  subst ht
  subst hbs
  rw [hlen0]
  simp [commonHdr, be16]
  omega


theorem rtcp_write_bye_ok (l : List Node) (t : Nat) (bs : List Nat)
    (h : rtcp_write_bye l = .ok (t, bs)) :
    ∃ st, byeLoop l {} = .ok st ∧ t = st.total ∧
      bs = commonHdr st.p (if st.countF = 0 then st.cnt % 32 else st.countF) 203
        (if st.lengthF = 0 then (st.total - 4) / 4 % 2 ^ 16 else st.lengthF) ++ st.body := by
  unfold rtcp_write_bye at h
  cases hs : byeLoop l {} with
  | error e => rw [hs] at h; cases h
  | ok st =>
    rw [hs] at h
    have h2 : Except.ok (st.total,
        commonHdr st.p (if st.countF = 0 then st.cnt % 32 else st.countF) 203
          (if st.lengthF = 0 then (st.total - 4) / 4 % 2 ^ 16 else st.lengthF) ++ st.body) =
        Except.ok (t, bs) := h
    simp only [Except.ok.injEq, Prod.mk.injEq] at h2
    exact ⟨st, rfl, h2.1.symm, h2.2.symm⟩

theorem rtcp_write_bye_len_inv (l : List Node) (t : Nat) (bs : List Nat)
    (h : rtcp_write_bye l = .ok (t, bs)) :
    t % 4 = 0 ∧ 4 ≤ t ∧
      (noLeafNamed "len".data l = true → (bs.drop 2).take 2 = be16 (t / 4 - 1)) := by
  obtain ⟨st, hs, ht, hbs⟩ := rtcp_write_bye_ok l t bs h
  have htot := byeLoop_total l {} st hs (by rfl) (by norm_num)
  refine ⟨by omega, by omega, ?_⟩
  intro hl
  have hlen0 : st.lengthF = 0 := byeLoop_lengthF l {} st hs hl
  subst ht
  subst hbs
  rw [hlen0]
  simp [commonHdr, be16]
  omega

theorem rtcp_packet_total (ns nu : Nat) (l : List Node) (r : Nat × List Nat)
    (h : rtcp_packet ns nu l = .ok r) : r.1 % 4 = 0 := by
  unfold rtcp_packet at h
  cases hk : rtcpKind l with
  | none => rw [hk] at h; cases h
  | some k =>
    rw [hk] at h
    have h' : (if k = "SDES".data then rtcp_write_sdes l
        else if k = "RR".data then rtcp_write_rr l
        else if k = "SR".data then rtcp_write_sr ns nu l
        else if k = "BYE".data then rtcp_write_bye l
        else rtcp_write_app l) = Except.ok r := h
    split_ifs at h' with h1 h2 h3 h4
    · exact (rtcp_write_sdes_len_inv l r.1 r.2 h').1
    · exact (rtcp_write_rr_len_inv l r.1 r.2 h').1
    · exact (rtcp_write_sr_len_inv ns nu l r.1 r.2 h').1
    · exact (rtcp_write_bye_len_inv l r.1 r.2 h').1
    · have h2 : Except.ok ((0 : Nat), ([] : List Nat)) = Except.ok r := h'
      cases h2
      rfl

theorem rtcpLoop_total (ns nu : Nat) (l : List Node) :
    ∀ acc res, rtcpLoop ns nu l acc = .ok res → acc.1 % 4 = 0 → res.1 % 4 = 0 := by
  induction l with
  | nil =>
    intro acc res h h4
    cases h
    exact h4
  | cons n rest ih =>
    intro acc res h h4
    cases n with
    | leaf ty num str => exact ih acc res h h4
    | group children =>
      cases children with
      | nil => exact ih acc res h h4
      | cons c cs =>
        cases hr : rtcp_packet ns nu (c :: cs) with
        | error e =>
          have h' : (Except.error e : Except (List Char) (Nat × List Nat)) = .ok res := by
            rw [show rtcpLoop ns nu (Node.group (c :: cs) :: rest) acc =
              Except.bind (rtcp_packet ns nu (c :: cs)) (fun r =>
                rtcpLoop ns nu rest (acc.1 + r.1, acc.2 ++ r.2)) from rfl, hr] at h
            exact h
          cases h'
        | ok r =>
          have h' : rtcpLoop ns nu rest (acc.1 + r.1, acc.2 ++ r.2) = .ok res := by
            rw [show rtcpLoop ns nu (Node.group (c :: cs) :: rest) acc =
              Except.bind (rtcp_packet ns nu (c :: cs)) (fun r =>
                rtcpLoop ns nu rest (acc.1 + r.1, acc.2 ++ r.2)) from rfl, hr] at h
            exact h
          have hp := rtcp_packet_total ns nu (c :: cs) r hr
          exact ih _ res h' (by simp; omega)

/-- C3: for each of the four record serializers, a record serialized without
an explicit `len=` leaf in its description has its 16-bit length field equal
to `record_bytes/4 - 1` (the two length bytes are `be16 (t/4 - 1)` where `t`
is the record's byte count), every record's byte count is a positive multiple
of 4, and the byte length of every emitted compound RTCP packet is a multiple
of 4 (the latter holds for every description, `len=` overrides included). -/
theorem C3_rtcp_length_invariants (l : List Node) (ns nu : Nat)
    (hl : noLeafNamed "len".data l = true) :
    (∀ t bs, rtcp_write_sdes l = .ok (t, bs) →
      t % 4 = 0 ∧ 4 ≤ t ∧ (bs.drop 2).take 2 = be16 (t / 4 - 1)) ∧
    (∀ t bs, rtcp_write_sr ns nu l = .ok (t, bs) →
      t % 4 = 0 ∧ 4 ≤ t ∧ (bs.drop 2).take 2 = be16 (t / 4 - 1)) ∧
    (∀ t bs, rtcp_write_rr l = .ok (t, bs) →
      t % 4 = 0 ∧ 4 ≤ t ∧ (bs.drop 2).take 2 = be16 (t / 4 - 1)) ∧
    (∀ t bs, rtcp_write_bye l = .ok (t, bs) →
      t % 4 = 0 ∧ 4 ≤ t ∧ (bs.drop 2).take 2 = be16 (t / 4 - 1)) ∧
    (∀ text t bs, rtcp ns nu text = .ok (t, bs) → t % 4 = 0) := by
  refine ⟨?_, ?_, ?_, ?_, ?_⟩
  · intro t bs h
    have hx := rtcp_write_sdes_len_inv l t bs h
    exact ⟨hx.1, hx.2.1, hx.2.2 hl⟩
  · intro t bs h
    have hx := rtcp_write_sr_len_inv ns nu l t bs h
    exact ⟨hx.1, hx.2.1, hx.2.2 hl⟩
  · intro t bs h
    have hx := rtcp_write_rr_len_inv l t bs h
    exact ⟨hx.1, hx.2.1, hx.2.2 hl⟩
  · intro t bs h
    have hx := rtcp_write_bye_len_inv l t bs h
    exact ⟨hx.1, hx.2.1, hx.2.2 hl⟩
  · intro text t bs h
    exact rtcpLoop_total ns nu (parse text) (0, []) (t, bs) h (by rfl)

/-- Witness for C3 at the record list `[SDES]` (4-byte record `80 CA 00 00`). -/
theorem C3_rtcp_length_invariants_witness :
    4 % 4 = 0 ∧ 4 ≤ 4 ∧
      ((([0x80, 0xCA, 0x00, 0x00] : List Nat).drop 2).take 2 = be16 (4 / 4 - 1)) :=
  (C3_rtcp_length_invariants [Node.leaf "SDES".data 0 none] 0 0 (by decide)).1
    4 [0x80, 0xCA, 0x00, 0x00] rfl

/-! ## Claims C10 and C8: supporting lemmas -/

/-- The SDES node loop splits over list concatenation. -/
theorem sdesLoop_append (a b : List Node) :
    ∀ st, sdesLoop (a ++ b) st = Except.bind (sdesLoop a st) (sdesLoop b) := by
  induction a with
  | nil => intro st; rfl
  | cons n rest ih =>
    intro st
    cases n with
    | group children =>
      show sdesLoop (rest ++ b)
        { st with body := st.body ++ (rtcp_sdes children).2,
                  total := st.total + (rtcp_sdes children).1, cnt := st.cnt + 1 } = _
      rw [ih]
      rfl
    | leaf ty num str =>
      show sdesLoop (Node.leaf ty num str :: (rest ++ b)) st = _
      simp only [sdesLoop]
      split_ifs
      · exact ih _
      · exact ih _
      · exact ih _
      · exact ih _
      · rfl

/-- The BYE node loop splits over list concatenation. -/
theorem byeLoop_append (a b : List Node) :
    ∀ st, byeLoop (a ++ b) st = Except.bind (byeLoop a st) (byeLoop b) := by
  induction a with
  | nil => intro st; rfl
  | cons n rest ih =>
    intro st
    cases n with
    | group children =>
      show byeLoop (rest ++ b)
        { st with body := st.body ++ (rtcp_bye children).2,
                  total := st.total + (rtcp_bye children).1, cnt := st.cnt + 1 } = _
      rw [ih]
      rfl
    | leaf ty num str =>
      show byeLoop (Node.leaf ty num str :: (rest ++ b)) st = _
      simp only [byeLoop]
      split_ifs
      · exact ih _
      · exact ih _
      · exact ih _
      · exact ih _
      · rfl

/-- The SR node loop splits over list concatenation. -/
theorem srLoop_append (a b : List Node) :
    ∀ st, srLoop (a ++ b) st = Except.bind (srLoop a st) (srLoop b) := by
  induction a with
  | nil => intro st; rfl
  | cons n rest ih =>
    intro st
    cases n with
    | group children =>
      cases hr : rtcp_rr children with
      | error e =>
        show Except.bind (rtcp_rr children) _ = Except.bind (Except.bind (rtcp_rr children) _) _
        rw [hr]
        rfl
      | ok r =>
        show Except.bind (rtcp_rr children) _ = Except.bind (Except.bind (rtcp_rr children) _) _
        rw [hr]
        show srLoop (rest ++ b)
          { st with body := st.body ++ r.2, total := st.total + r.1, cnt := st.cnt + 1 } = _
        rw [ih]
        rfl
    | leaf ty num str =>
      have key : (∃ st2, ∀ L, srLoop (Node.leaf ty num str :: L) st = srLoop L st2) ∨
          (∃ e, ∀ L, srLoop (Node.leaf ty num str :: L) st = Except.error e) := by
        by_cases c1 : ty = "SR".data
        · exact Or.inl ⟨st, fun L => by
            simp only [srLoop]; rw [if_pos c1]⟩
        by_cases c2 : ty = "ssrc".data
        · exact Or.inl ⟨{ st with ssrc := num % 2 ^ 32 }, fun L => by
            simp only [srLoop]; rw [if_neg c1, if_pos c2]⟩
        by_cases c3 : ty = "p".data
        · exact Or.inl ⟨{ st with p := num % 2 }, fun L => by
            simp only [srLoop]; rw [if_neg c1, if_neg c2, if_pos c3]⟩
        by_cases c4 : ty = "count".data
        · exact Or.inl ⟨{ st with countF := num % 32 }, fun L => by
            simp only [srLoop]; rw [if_neg c1, if_neg c2, if_neg c3, if_pos c4]⟩
        by_cases c5 : ty = "len".data
        · exact Or.inl ⟨{ st with lengthF := num % 2 ^ 16 }, fun L => by
            simp only [srLoop]; rw [if_neg c1, if_neg c2, if_neg c3, if_neg c4, if_pos c5]⟩
        by_cases c6 : ty = "ntp".data
        · exact Or.inl ⟨{ st with ntp_sec := num % 2 ^ 32 }, fun L => by
            simp only [srLoop]; rw [if_neg c1, if_neg c2, if_neg c3, if_neg c4, if_neg c5, if_pos c6]⟩
        by_cases c7 : ty = "ts".data
        · exact Or.inl ⟨{ st with rtp_ts := num % 2 ^ 32 }, fun L => by
            simp only [srLoop]; rw [if_neg c1, if_neg c2, if_neg c3, if_neg c4, if_neg c5, if_neg c6, if_pos c7]⟩
        by_cases c8 : ty = "psent".data
        · exact Or.inl ⟨{ st with psent := num % 2 ^ 32 }, fun L => by
            simp only [srLoop]; rw [if_neg c1, if_neg c2, if_neg c3, if_neg c4, if_neg c5, if_neg c6, if_neg c7, if_pos c8]⟩
        by_cases c9 : ty = "osent".data
        · exact Or.inl ⟨{ st with osent := num % 2 ^ 32 }, fun L => by
            simp only [srLoop]; rw [if_neg c1, if_neg c2, if_neg c3, if_neg c4, if_neg c5, if_neg c6, if_neg c7, if_neg c8, if_pos c9]⟩
        exact Or.inr ⟨"Invalid RTCP type ".data ++ ty, fun L => by
          simp only [srLoop]; rw [if_neg c1, if_neg c2, if_neg c3, if_neg c4, if_neg c5, if_neg c6, if_neg c7, if_neg c8, if_neg c9]⟩
      rcases key with ⟨st2, hst2⟩ | ⟨e, he⟩
      · show srLoop (Node.leaf ty num str :: (rest ++ b)) st = _
        rw [hst2 (rest ++ b), hst2 rest]
        exact ih st2
      · show srLoop (Node.leaf ty num str :: (rest ++ b)) st = _
        rw [he (rest ++ b), he rest]
        rfl

/-- The RR node loop splits over list concatenation. -/
theorem rrLoop_append (a b : List Node) :
    ∀ st, rrLoop (a ++ b) st = Except.bind (rrLoop a st) (rrLoop b) := by
  induction a with
  | nil => intro st; rfl
  | cons n rest ih =>
    intro st
    cases n with
    | group children =>
      cases hr : rtcp_rr children with
      | error e =>
        show Except.bind (rtcp_rr children) _ = Except.bind (Except.bind (rtcp_rr children) _) _
        rw [hr]
        rfl
      | ok r =>
        show Except.bind (rtcp_rr children) _ = Except.bind (Except.bind (rtcp_rr children) _) _
        rw [hr]
        show rrLoop (rest ++ b)
          { st with body := st.body ++ r.2, total := st.total + r.1, cnt := st.cnt + 1 } = _
        rw [ih]
        rfl
    | leaf ty num str =>
      show rrLoop (Node.leaf ty num str :: (rest ++ b)) st = _
      simp only [rrLoop]
      split_ifs
      · exact ih _
      · exact ih _
      · exact ih _
      · exact ih _
      · exact ih _
      · rfl

/-- The record-level `count` field is written only by a `count=` leaf. -/
theorem sdesLoop_countF (l : List Node) :
    ∀ st st', sdesLoop l st = .ok st' → noLeafNamed "count".data l = true →
      st'.countF = st.countF := by
  induction l with
  | nil =>
    intro st st' h _
    cases h
    rfl
  | cons n rest ih =>
    intro st st' h hl
    simp only [noLeafNamed, List.all_cons, Bool.and_eq_true] at hl
    have hl2 : noLeafNamed "count".data rest = true := hl.2
    cases n with
    | group children =>
      have h' : sdesLoop rest
          { st with body := st.body ++ (rtcp_sdes children).2,
                    total := st.total + (rtcp_sdes children).1,
                    cnt := st.cnt + 1 } = .ok st' := h
      have h2 := ih _ _ h' hl2
      exact h2
    | leaf ty num str =>
      have hne : ty ≠ "count".data := by simpa using hl.1
      simp only [sdesLoop] at h
      split_ifs at h with hc1 hc2 hc3
      · exact ih st st' h hl2
      · exact ih { st with p := num % 2 } st' h hl2
      · exact ih { st with lengthF := num % 2 ^ 16 } st' h hl2

/-- The record-level `count` field is written only by a `count=` leaf. -/
theorem byeLoop_countF (l : List Node) :
    ∀ st st', byeLoop l st = .ok st' → noLeafNamed "count".data l = true →
      st'.countF = st.countF := by
  induction l with
  | nil =>
    intro st st' h _
    cases h
    rfl
  | cons n rest ih =>
    intro st st' h hl
    simp only [noLeafNamed, List.all_cons, Bool.and_eq_true] at hl
    have hl2 : noLeafNamed "count".data rest = true := hl.2
    cases n with
    | group children =>
      have h' : byeLoop rest
          { st with body := st.body ++ (rtcp_bye children).2,
                    total := st.total + (rtcp_bye children).1,
                    cnt := st.cnt + 1 } = .ok st' := h
      have h2 := ih _ _ h' hl2
      exact h2
    | leaf ty num str =>
      have hne : ty ≠ "count".data := by simpa using hl.1
      simp only [byeLoop] at h
      split_ifs at h with hc1 hc2 hc3
      · exact ih st st' h hl2
      · exact ih { st with p := num % 2 } st' h hl2
      · exact ih { st with lengthF := num % 2 ^ 16 } st' h hl2

/-- The record-level `count` field is written only by a `count=` leaf. -/
theorem rrLoop_countF (l : List Node) :
    ∀ st st', rrLoop l st = .ok st' → noLeafNamed "count".data l = true →
      st'.countF = st.countF := by
  induction l with
  | nil =>
    intro st st' h _
    cases h
    rfl
  | cons n rest ih =>
    intro st st' h hl
    simp only [noLeafNamed, List.all_cons, Bool.and_eq_true] at hl
    have hl2 : noLeafNamed "count".data rest = true := hl.2
    cases n with
    | group children =>
      cases hr : rtcp_rr children with
      | error e =>
        have h' : (Except.error e : Except (List Char) WRrSt) = Except.ok st' := by
          rw [show rrLoop (Node.group children :: rest) st =
            Except.bind (rtcp_rr children) (fun r => rrLoop rest
              { st with body := st.body ++ r.2, total := st.total + r.1,
                        cnt := st.cnt + 1 }) from rfl, hr] at h
          exact h
        cases h'
      | ok r =>
        have h' : rrLoop rest
            { st with body := st.body ++ r.2, total := st.total + r.1,
                      cnt := st.cnt + 1 } = .ok st' := by
          rw [show rrLoop (Node.group children :: rest) st =
            Except.bind (rtcp_rr children) (fun r => rrLoop rest
              { st with body := st.body ++ r.2, total := st.total + r.1,
                        cnt := st.cnt + 1 }) from rfl, hr] at h
          exact h
        have h2 := ih _ _ h' hl2
        exact h2
    | leaf ty num str =>
      have hne : ty ≠ "count".data := by simpa using hl.1
      simp only [rrLoop] at h
      split_ifs at h with hc1 hc2 hc3 hc4
      · exact ih st st' h hl2
      · exact ih { st with ssrc := num % 2 ^ 32 } st' h hl2
      · exact ih { st with p := num % 2 } st' h hl2
      · exact ih { st with lengthF := num % 2 ^ 16 } st' h hl2

/-- The record-level `count` field is written only by a `count=` leaf. -/
theorem srLoop_countF (l : List Node) :
    ∀ st st', srLoop l st = .ok st' → noLeafNamed "count".data l = true →
      st'.countF = st.countF := by
  induction l with
  | nil =>
    intro st st' h _
    cases h
    rfl
  | cons n rest ih =>
    intro st st' h hl
    simp only [noLeafNamed, List.all_cons, Bool.and_eq_true] at hl
    have hl2 : noLeafNamed "count".data rest = true := hl.2
    cases n with
    | group children =>
      cases hr : rtcp_rr children with
      | error e =>
        have h' : (Except.error e : Except (List Char) WSrSt) = Except.ok st' := by
          rw [show srLoop (Node.group children :: rest) st =
            Except.bind (rtcp_rr children) (fun r => srLoop rest
              { st with body := st.body ++ r.2, total := st.total + r.1,
                        cnt := st.cnt + 1 }) from rfl, hr] at h
          exact h
        cases h'
      | ok r =>
        have h' : srLoop rest
            { st with body := st.body ++ r.2, total := st.total + r.1,
                      cnt := st.cnt + 1 } = .ok st' := by
          rw [show srLoop (Node.group children :: rest) st =
            Except.bind (rtcp_rr children) (fun r => srLoop rest
              { st with body := st.body ++ r.2, total := st.total + r.1,
                        cnt := st.cnt + 1 }) from rfl, hr] at h
          exact h
        have h2 := ih _ _ h' hl2
        exact h2
    | leaf ty num str =>
      have hne : ty ≠ "count".data := by simpa using hl.1
      simp only [srLoop] at h
      split_ifs at h with hc1 hc2 hc3 hc4 hc5 hc6 hc7 hc8
      · exact ih st st' h hl2
      · exact ih { st with ssrc := num % 2 ^ 32 } st' h hl2
      · exact ih { st with p := num % 2 } st' h hl2
      · exact ih { st with lengthF := num % 2 ^ 16 } st' h hl2
      · exact ih { st with ntp_sec := num % 2 ^ 32 } st' h hl2
      · exact ih { st with rtp_ts := num % 2 ^ 32 } st' h hl2
      · exact ih { st with psent := num % 2 ^ 32 } st' h hl2
      · exact ih { st with osent := num % 2 ^ 32 } st' h hl2


/-- `rtpTok` changes the explicit `length` only for a `len=` token. -/
theorem rtpTok_length_of_ne (le : Bool) (st : RtpSt) (tok : List Char)
    (h : ¬ tokName tok = "len".data) : (rtpTok le st tok).length = st.length := by
  simp only [rtpTok]
  by_cases c1 : tokName tok = "ts".data
  · rw [if_pos c1]
  rw [if_neg c1]
  by_cases c2 : tokName tok = "seq".data
  · rw [if_pos c2]
  rw [if_neg c2]
  by_cases c3 : tokName tok = "pt".data
  · rw [if_pos c3]
  rw [if_neg c3]
  by_cases c4 : tokName tok = "ssrc".data
  · rw [if_pos c4]
  rw [if_neg c4]
  by_cases c5 : tokName tok = "p".data
  · rw [if_pos c5]
  rw [if_neg c5]
  by_cases c6 : tokName tok = "m".data
  · rw [if_pos c6]
  rw [if_neg c6]
  by_cases c7 : tokName tok = "x".data
  · rw [if_pos c7]
  rw [if_neg c7]
  by_cases c8 : tokName tok = "v".data
  · rw [if_pos c8]
  rw [if_neg c8]
  by_cases c9 : tokName tok = "cc".data
  · rw [if_pos c9]
  rw [if_neg c9]
  by_cases c10 : (tokName tok).take 4 = "csrc".data
  · rw [if_pos c10]
    by_cases ck : atoiInt (List.drop 5 (tokBuf tok)) < 0
    · rw [if_pos ck]
    · rw [if_neg ck]
  rw [if_neg c10]
  by_cases c11 : tokName tok = "ext_type".data
  · rw [if_pos c11]
  rw [if_neg c11]
  by_cases c12 : tokName tok = "ext_len".data
  · rw [if_pos c12]
  rw [if_neg c12]
  by_cases c13 : tokName tok = "ext_data".data
  · rw [if_pos c13]
  rw [if_neg c13]
  by_cases c14 : tokName tok = "data".data
  · rw [if_pos c14]
  rw [if_neg c14]
  rw [if_neg h]

/-- `rtpTok` changes the CC field only for a `cc=` token. -/
theorem rtpTok_cc_of_ne (le : Bool) (st : RtpSt) (tok : List Char)
    (h : ¬ tokName tok = "cc".data) : (rtpTok le st tok).cc = st.cc := by
  simp only [rtpTok]
  by_cases c1 : tokName tok = "ts".data
  · rw [if_pos c1]
  rw [if_neg c1]
  by_cases c2 : tokName tok = "seq".data
  · rw [if_pos c2]
  rw [if_neg c2]
  by_cases c3 : tokName tok = "pt".data
  · rw [if_pos c3]
  rw [if_neg c3]
  by_cases c4 : tokName tok = "ssrc".data
  · rw [if_pos c4]
  rw [if_neg c4]
  by_cases c5 : tokName tok = "p".data
  · rw [if_pos c5]
  rw [if_neg c5]
  by_cases c6 : tokName tok = "m".data
  · rw [if_pos c6]
  rw [if_neg c6]
  by_cases c7 : tokName tok = "x".data
  · rw [if_pos c7]
  rw [if_neg c7]
  by_cases c8 : tokName tok = "v".data
  · rw [if_pos c8]
  rw [if_neg c8]
  rw [if_neg h]
  by_cases c10 : (tokName tok).take 4 = "csrc".data
  · rw [if_pos c10]
    by_cases ck : atoiInt (List.drop 5 (tokBuf tok)) < 0
    · rw [if_pos ck]
    · rw [if_neg ck]
  rw [if_neg c10]
  by_cases c11 : tokName tok = "ext_type".data
  · rw [if_pos c11]
  rw [if_neg c11]
  by_cases c12 : tokName tok = "ext_len".data
  · rw [if_pos c12]
  rw [if_neg c12]
  by_cases c13 : tokName tok = "ext_data".data
  · rw [if_pos c13]
  rw [if_neg c13]
  by_cases c14 : tokName tok = "data".data
  · rw [if_pos c14]
  rw [if_neg c14]
  by_cases c15 : tokName tok = "len".data
  · rw [if_pos c15]
  rw [if_neg c15]

/-- Folding tokens without a `len=` token preserves the `length` local. -/
theorem rtpToks_foldl_length (le : Bool) :
    ∀ (toks : List (List Char)) (st : RtpSt), noTokNamed "len".data toks = true →
      (toks.foldl (rtpTok le) st).length = st.length := by
  intro toks
  induction toks with
  | nil => intro st _; rfl
  | cons t ts ih =>
    intro st h
    simp only [noTokNamed, List.all_cons, Bool.and_eq_true] at h
    show (ts.foldl (rtpTok le) (rtpTok le st t)).length = st.length
    rw [ih (rtpTok le st t) h.2, rtpTok_length_of_ne le st t (by simpa using h.1)]

/-- Folding tokens without a `cc=` token preserves the CC field. -/
theorem rtpToks_foldl_cc (le : Bool) :
    ∀ (toks : List (List Char)) (st : RtpSt), noTokNamed "cc".data toks = true →
      (toks.foldl (rtpTok le) st).cc = st.cc := by
  intro toks
  induction toks with
  | nil => intro st _; rfl
  | cons t ts ih =>
    intro st h
    simp only [noTokNamed, List.all_cons, Bool.and_eq_true] at h
    show (ts.foldl (rtpTok le) (rtpTok le st t)).cc = st.cc
    rw [ih (rtpTok le st t) h.2, rtpTok_cc_of_ne le st t (by simpa using h.1)]

/-- C10: in every RTCP record serializer an explicit `len=0` or `count=0`
leaf behaves exactly like omitting the leaf (the field test `== 0` cannot
tell them apart, so the auto-computed length `(total-4)/4` and the counted
number of inner children are used), provided no earlier leaf set the same
field; likewise in the RTP serializer a `len=0` token leaves the default
computed length `12 + 4*cc + payload + extension` and an explicit `cc=0`
falls back to the implicit CSRC-derived count, provided no earlier token set
the field. -/
theorem C10_zero_overrides (ns nu : Nat) (le : Bool) (pre post : List Node)
    (tpre tpost : List (List Char))
    (h1 : noLeafNamed "len".data pre = true)
    (h2 : noLeafNamed "count".data pre = true)
    (h3 : noTokNamed "len".data tpre = true)
    (h4 : noTokNamed "cc".data tpre = true) :
    rtcp_write_sdes (pre ++ Node.leaf "len".data 0 none :: post) =
      rtcp_write_sdes (pre ++ post) ∧
    rtcp_write_sdes (pre ++ Node.leaf "count".data 0 none :: post) =
      rtcp_write_sdes (pre ++ post) ∧
    rtcp_write_sr ns nu (pre ++ Node.leaf "len".data 0 none :: post) =
      rtcp_write_sr ns nu (pre ++ post) ∧
    rtcp_write_sr ns nu (pre ++ Node.leaf "count".data 0 none :: post) =
      rtcp_write_sr ns nu (pre ++ post) ∧
    rtcp_write_rr (pre ++ Node.leaf "len".data 0 none :: post) =
      rtcp_write_rr (pre ++ post) ∧
    rtcp_write_rr (pre ++ Node.leaf "count".data 0 none :: post) =
      rtcp_write_rr (pre ++ post) ∧
    rtcp_write_bye (pre ++ Node.leaf "len".data 0 none :: post) =
      rtcp_write_bye (pre ++ post) ∧
    rtcp_write_bye (pre ++ Node.leaf "count".data 0 none :: post) =
      rtcp_write_bye (pre ++ post) ∧
    rtpToks le (tpre ++ "len=0".data :: tpost) = rtpToks le (tpre ++ tpost) ∧
    rtpToks le (tpre ++ "cc=0".data :: tpost) = rtpToks le (tpre ++ tpost) := by
  have sdes_len_eq : rtcp_write_sdes (pre ++ Node.leaf "len".data 0 none :: post) =
      rtcp_write_sdes (pre ++ post) := by
    have loop_eq : sdesLoop (pre ++ Node.leaf "len".data 0 none :: post) ({} : WSdesSt) =
        sdesLoop (pre ++ post) ({} : WSdesSt) := by
      rw [sdesLoop_append pre (Node.leaf "len".data 0 none :: post) ({} : WSdesSt),
          sdesLoop_append pre post ({} : WSdesSt)]
      cases hs : sdesLoop pre ({} : WSdesSt) with
      | error e => rfl
      | ok st =>
        have hz : st.lengthF = 0 := sdesLoop_lengthF pre ({} : WSdesSt) st hs h1
        show sdesLoop (Node.leaf "len".data 0 none :: post) st = sdesLoop post st
        rw [show sdesLoop (Node.leaf "len".data 0 none :: post) st =
          sdesLoop post { st with lengthF := 0 % 2 ^ 16 } from rfl]
        congr 1
        cases st
        simp_all
    unfold rtcp_write_sdes
    rw [loop_eq]
  have sdes_count_eq : rtcp_write_sdes (pre ++ Node.leaf "count".data 0 none :: post) =
      rtcp_write_sdes (pre ++ post) := by
    have loop_eq : sdesLoop (pre ++ Node.leaf "count".data 0 none :: post) ({} : WSdesSt) =
        sdesLoop (pre ++ post) ({} : WSdesSt) := by
      rw [sdesLoop_append pre (Node.leaf "count".data 0 none :: post) ({} : WSdesSt),
          sdesLoop_append pre post ({} : WSdesSt)]
      cases hs : sdesLoop pre ({} : WSdesSt) with
      | error e => rfl
      | ok st =>
        have hz : st.countF = 0 := sdesLoop_countF pre ({} : WSdesSt) st hs h2
        show sdesLoop (Node.leaf "count".data 0 none :: post) st = sdesLoop post st
        rw [show sdesLoop (Node.leaf "count".data 0 none :: post) st =
          sdesLoop post { st with countF := 0 % 32 } from rfl]
        congr 1
        cases st
        simp_all
    unfold rtcp_write_sdes
    rw [loop_eq]
  have sr_len_eq : rtcp_write_sr ns nu (pre ++ Node.leaf "len".data 0 none :: post) =
      rtcp_write_sr ns nu (pre ++ post) := by
    have loop_eq : srLoop (pre ++ Node.leaf "len".data 0 none :: post) (srInit ns nu) =
        srLoop (pre ++ post) (srInit ns nu) := by
      rw [srLoop_append pre (Node.leaf "len".data 0 none :: post) (srInit ns nu),
          srLoop_append pre post (srInit ns nu)]
      cases hs : srLoop pre (srInit ns nu) with
      | error e => rfl
      | ok st =>
        have hz : st.lengthF = 0 := srLoop_lengthF pre (srInit ns nu) st hs h1
        show srLoop (Node.leaf "len".data 0 none :: post) st = srLoop post st
        rw [show srLoop (Node.leaf "len".data 0 none :: post) st =
          srLoop post { st with lengthF := 0 % 2 ^ 16 } from rfl]
        congr 1
        cases st
        simp_all
    unfold rtcp_write_sr
    rw [loop_eq]
  have sr_count_eq : rtcp_write_sr ns nu (pre ++ Node.leaf "count".data 0 none :: post) =
      rtcp_write_sr ns nu (pre ++ post) := by
    have loop_eq : srLoop (pre ++ Node.leaf "count".data 0 none :: post) (srInit ns nu) =
        srLoop (pre ++ post) (srInit ns nu) := by
      rw [srLoop_append pre (Node.leaf "count".data 0 none :: post) (srInit ns nu),
          srLoop_append pre post (srInit ns nu)]
      cases hs : srLoop pre (srInit ns nu) with
      | error e => rfl
      | ok st =>
        have hz : st.countF = 0 := srLoop_countF pre (srInit ns nu) st hs h2
        show srLoop (Node.leaf "count".data 0 none :: post) st = srLoop post st
        rw [show srLoop (Node.leaf "count".data 0 none :: post) st =
          srLoop post { st with countF := 0 % 32 } from rfl]
        congr 1
        cases st
        simp_all
    unfold rtcp_write_sr
    rw [loop_eq]
  have rr_len_eq : rtcp_write_rr (pre ++ Node.leaf "len".data 0 none :: post) =
      rtcp_write_rr (pre ++ post) := by
    have loop_eq : rrLoop (pre ++ Node.leaf "len".data 0 none :: post) ({} : WRrSt) =
        rrLoop (pre ++ post) ({} : WRrSt) := by
      rw [rrLoop_append pre (Node.leaf "len".data 0 none :: post) ({} : WRrSt),
          rrLoop_append pre post ({} : WRrSt)]
      cases hs : rrLoop pre ({} : WRrSt) with
      | error e => rfl
      | ok st =>
        have hz : st.lengthF = 0 := rrLoop_lengthF pre ({} : WRrSt) st hs h1
        show rrLoop (Node.leaf "len".data 0 none :: post) st = rrLoop post st
        rw [show rrLoop (Node.leaf "len".data 0 none :: post) st =
          rrLoop post { st with lengthF := 0 % 2 ^ 16 } from rfl]
        congr 1
        cases st
        simp_all
    unfold rtcp_write_rr
    rw [loop_eq]
  have rr_count_eq : rtcp_write_rr (pre ++ Node.leaf "count".data 0 none :: post) =
      rtcp_write_rr (pre ++ post) := by
    have loop_eq : rrLoop (pre ++ Node.leaf "count".data 0 none :: post) ({} : WRrSt) =
        rrLoop (pre ++ post) ({} : WRrSt) := by
      rw [rrLoop_append pre (Node.leaf "count".data 0 none :: post) ({} : WRrSt),
          rrLoop_append pre post ({} : WRrSt)]
      cases hs : rrLoop pre ({} : WRrSt) with
      | error e => rfl
      | ok st =>
        have hz : st.countF = 0 := rrLoop_countF pre ({} : WRrSt) st hs h2
        show rrLoop (Node.leaf "count".data 0 none :: post) st = rrLoop post st
        rw [show rrLoop (Node.leaf "count".data 0 none :: post) st =
          rrLoop post { st with countF := 0 % 32 } from rfl]
        congr 1
        cases st
        simp_all
    unfold rtcp_write_rr
    rw [loop_eq]
  have bye_len_eq : rtcp_write_bye (pre ++ Node.leaf "len".data 0 none :: post) =
      rtcp_write_bye (pre ++ post) := by
    have loop_eq : byeLoop (pre ++ Node.leaf "len".data 0 none :: post) ({} : WSdesSt) =
        byeLoop (pre ++ post) ({} : WSdesSt) := by
      rw [byeLoop_append pre (Node.leaf "len".data 0 none :: post) ({} : WSdesSt),
          byeLoop_append pre post ({} : WSdesSt)]
      cases hs : byeLoop pre ({} : WSdesSt) with
      | error e => rfl
      | ok st =>
        have hz : st.lengthF = 0 := byeLoop_lengthF pre ({} : WSdesSt) st hs h1
        show byeLoop (Node.leaf "len".data 0 none :: post) st = byeLoop post st
        rw [show byeLoop (Node.leaf "len".data 0 none :: post) st =
          byeLoop post { st with lengthF := 0 % 2 ^ 16 } from rfl]
        congr 1
        cases st
        simp_all
    unfold rtcp_write_bye
    rw [loop_eq]
  have bye_count_eq : rtcp_write_bye (pre ++ Node.leaf "count".data 0 none :: post) =
      rtcp_write_bye (pre ++ post) := by
    have loop_eq : byeLoop (pre ++ Node.leaf "count".data 0 none :: post) ({} : WSdesSt) =
        byeLoop (pre ++ post) ({} : WSdesSt) := by
      rw [byeLoop_append pre (Node.leaf "count".data 0 none :: post) ({} : WSdesSt),
          byeLoop_append pre post ({} : WSdesSt)]
      cases hs : byeLoop pre ({} : WSdesSt) with
      | error e => rfl
      | ok st =>
        have hz : st.countF = 0 := byeLoop_countF pre ({} : WSdesSt) st hs h2
        show byeLoop (Node.leaf "count".data 0 none :: post) st = byeLoop post st
        rw [show byeLoop (Node.leaf "count".data 0 none :: post) st =
          byeLoop post { st with countF := 0 % 32 } from rfl]
        congr 1
        cases st
        simp_all
    unfold rtcp_write_bye
    rw [loop_eq]
  have rtp_len_eq : rtpToks le (tpre ++ "len=0".data :: tpost) = rtpToks le (tpre ++ tpost) := by
    unfold rtpToks
    rw [List.foldl_append, List.foldl_append]
    have hz : (tpre.foldl (rtpTok le) {}).length = 0 := rtpToks_foldl_length le tpre {} h3
    show List.foldl (rtpTok le) (rtpTok le (tpre.foldl (rtpTok le) {}) "len=0".data) tpost = _
    rw [show rtpTok le (tpre.foldl (rtpTok le) {}) "len=0".data =
      { tpre.foldl (rtpTok le) {} with length := 0 } from rfl]
    congr 1
    generalize tpre.foldl (rtpTok le) {} = st at hz
    cases st
    simp_all
  have rtp_cc_eq : rtpToks le (tpre ++ "cc=0".data :: tpost) = rtpToks le (tpre ++ tpost) := by
    unfold rtpToks
    rw [List.foldl_append, List.foldl_append]
    have hz : (tpre.foldl (rtpTok le) {}).cc = 0 := rtpToks_foldl_cc le tpre {} h4
    show List.foldl (rtpTok le) (rtpTok le (tpre.foldl (rtpTok le) {}) "cc=0".data) tpost = _
    rw [show rtpTok le (tpre.foldl (rtpTok le) {}) "cc=0".data =
      { tpre.foldl (rtpTok le) {} with cc := 0 } from rfl]
    congr 1
    generalize tpre.foldl (rtpTok le) {} = st at hz
    cases st
    simp_all
  exact ⟨sdes_len_eq, sdes_count_eq, sr_len_eq, sr_count_eq, rr_len_eq, rr_count_eq,
    bye_len_eq, bye_count_eq, rtp_len_eq, rtp_cc_eq⟩

/-- Witness for C10 at the record list `[SDES]` and the token list `[pt=7]`. -/
theorem C10_zero_overrides_witness :
    rtcp_write_sdes ([Node.leaf "SDES".data 0 none] ++ Node.leaf "len".data 0 none :: []) =
      rtcp_write_sdes ([Node.leaf "SDES".data 0 none] ++ []) ∧
    rtcp_write_sdes ([Node.leaf "SDES".data 0 none] ++ Node.leaf "count".data 0 none :: []) =
      rtcp_write_sdes ([Node.leaf "SDES".data 0 none] ++ []) ∧
    rtcp_write_sr 0 0 ([Node.leaf "SDES".data 0 none] ++ Node.leaf "len".data 0 none :: []) =
      rtcp_write_sr 0 0 ([Node.leaf "SDES".data 0 none] ++ []) ∧
    rtcp_write_sr 0 0 ([Node.leaf "SDES".data 0 none] ++ Node.leaf "count".data 0 none :: []) =
      rtcp_write_sr 0 0 ([Node.leaf "SDES".data 0 none] ++ []) ∧
    rtcp_write_rr ([Node.leaf "SDES".data 0 none] ++ Node.leaf "len".data 0 none :: []) =
      rtcp_write_rr ([Node.leaf "SDES".data 0 none] ++ []) ∧
    rtcp_write_rr ([Node.leaf "SDES".data 0 none] ++ Node.leaf "count".data 0 none :: []) =
      rtcp_write_rr ([Node.leaf "SDES".data 0 none] ++ []) ∧
    rtcp_write_bye ([Node.leaf "SDES".data 0 none] ++ Node.leaf "len".data 0 none :: []) =
      rtcp_write_bye ([Node.leaf "SDES".data 0 none] ++ []) ∧
    rtcp_write_bye ([Node.leaf "SDES".data 0 none] ++ Node.leaf "count".data 0 none :: []) =
      rtcp_write_bye ([Node.leaf "SDES".data 0 none] ++ []) ∧
    rtpToks true ([['p', 't', '=', '7']] ++ "len=0".data :: []) = rtpToks true ([['p', 't', '=', '7']] ++ []) ∧
    rtpToks true ([['p', 't', '=', '7']] ++ "cc=0".data :: []) = rtpToks true ([['p', 't', '=', '7']] ++ []) :=
  C10_zero_overrides 0 0 true [Node.leaf "SDES".data 0 none] [] [['p', 't', '=', '7']] []
    (by decide) (by decide) (by decide) (by decide)


/-- No SR step ever writes `ntp_frac`: it keeps its initial wall-clock value. -/
theorem srLoop_ntp_frac (l : List Node) :
    ∀ st st', srLoop l st = .ok st' → st'.ntp_frac = st.ntp_frac := by
  induction l with
  | nil =>
    intro st st' h
    cases h
    rfl
  | cons n rest ih =>
    intro st st' h
    cases n with
    | group children =>
      cases hr : rtcp_rr children with
      | error e =>
        have h' : (Except.error e : Except (List Char) WSrSt) = Except.ok st' := by
          rw [show srLoop (Node.group children :: rest) st =
            Except.bind (rtcp_rr children) (fun r => srLoop rest
              { st with body := st.body ++ r.2, total := st.total + r.1,
                        cnt := st.cnt + 1 }) from rfl, hr] at h
          exact h
        cases h'
      | ok r =>
        have h' : srLoop rest
            { st with body := st.body ++ r.2, total := st.total + r.1,
                      cnt := st.cnt + 1 } = .ok st' := by
          rw [show srLoop (Node.group children :: rest) st =
            Except.bind (rtcp_rr children) (fun r => srLoop rest
              { st with body := st.body ++ r.2, total := st.total + r.1,
                        cnt := st.cnt + 1 }) from rfl, hr] at h
          exact h
        have h2 := ih _ _ h'
        exact h2
    | leaf ty num str =>
      simp only [srLoop] at h
      split_ifs at h with hc1 hc2 hc3 hc4 hc5 hc6 hc7 hc8 hc9
      · exact ih st st' h
      · exact ih { st with ssrc := num % 2 ^ 32 } st' h
      · exact ih { st with p := num % 2 } st' h
      · exact ih { st with countF := num % 32 } st' h
      · exact ih { st with lengthF := num % 2 ^ 16 } st' h
      · exact ih { st with ntp_sec := num % 2 ^ 32 } st' h
      · exact ih { st with rtp_ts := num % 2 ^ 32 } st' h
      · exact ih { st with psent := num % 2 ^ 32 } st' h
      · exact ih { st with osent := num % 2 ^ 32 } st' h

/-- Processing SR nodes that carry no `ntp=` leaf commutes with overriding
`ntp_sec`: the other steps neither read nor write that field. -/
theorem srLoop_set_ntp (l : List Node) :
    ∀ st v, noLeafNamed "ntp".data l = true →
      srLoop l { st with ntp_sec := v } =
        (srLoop l st).map (fun s2 => { s2 with ntp_sec := v }) := by
  induction l with
  | nil => intro st v _; rfl
  | cons n rest ih =>
    intro st v hl
    simp only [noLeafNamed, List.all_cons, Bool.and_eq_true] at hl
    have hl2 : noLeafNamed "ntp".data rest = true := hl.2
    cases n with
    | group children =>
      cases hr : rtcp_rr children with
      | error e =>
        show Except.bind (rtcp_rr children) _ = (Except.bind (rtcp_rr children) _).map _
        rw [hr]
        rfl
      | ok r =>
        show Except.bind (rtcp_rr children) _ = (Except.bind (rtcp_rr children) _).map _
        rw [hr]
        show srLoop rest _ = (srLoop rest
          { st with body := st.body ++ r.2, total := st.total + r.1, cnt := st.cnt + 1 }).map _
        have hX := ih { st with body := st.body ++ r.2, total := st.total + r.1, cnt := st.cnt + 1 } v hl2
        exact hX
    | leaf ty num str =>
      have hne : ¬ ty = "ntp".data := by simpa using hl.1
      have key : (∃ f : WSrSt → WSrSt,
          (∀ L s2, srLoop (Node.leaf ty num str :: L) s2 = srLoop L (f s2)) ∧
          ∀ s2 v, f { s2 with ntp_sec := v } = { f s2 with ntp_sec := v }) ∨
          (∃ e, ∀ L s2, srLoop (Node.leaf ty num str :: L) s2 =
            (Except.error e : Except (List Char) WSrSt)) := by
        by_cases c1 : ty = "SR".data
        · exact Or.inl ⟨fun s2 => s2, fun L s2 => by
            simp only [srLoop]; rw [if_pos c1], fun s2 v => rfl⟩
        by_cases c2 : ty = "ssrc".data
        · exact Or.inl ⟨fun s2 => { s2 with ssrc := num % 2 ^ 32 }, fun L s2 => by
            simp only [srLoop]; rw [if_neg c1, if_pos c2], fun s2 v => rfl⟩
        by_cases c3 : ty = "p".data
        · exact Or.inl ⟨fun s2 => { s2 with p := num % 2 }, fun L s2 => by
            simp only [srLoop]; rw [if_neg c1, if_neg c2, if_pos c3], fun s2 v => rfl⟩
        by_cases c4 : ty = "count".data
        · exact Or.inl ⟨fun s2 => { s2 with countF := num % 32 }, fun L s2 => by
            simp only [srLoop]; rw [if_neg c1, if_neg c2, if_neg c3, if_pos c4], fun s2 v => rfl⟩
        by_cases c5 : ty = "len".data
        · exact Or.inl ⟨fun s2 => { s2 with lengthF := num % 2 ^ 16 }, fun L s2 => by
            simp only [srLoop]; rw [if_neg c1, if_neg c2, if_neg c3, if_neg c4, if_pos c5], fun s2 v => rfl⟩
        by_cases c7 : ty = "ts".data
        · exact Or.inl ⟨fun s2 => { s2 with rtp_ts := num % 2 ^ 32 }, fun L s2 => by
            simp only [srLoop]; rw [if_neg c1, if_neg c2, if_neg c3, if_neg c4, if_neg c5, if_neg hne, if_pos c7], fun s2 v => rfl⟩
        by_cases c8 : ty = "psent".data
        · exact Or.inl ⟨fun s2 => { s2 with psent := num % 2 ^ 32 }, fun L s2 => by
            simp only [srLoop]; rw [if_neg c1, if_neg c2, if_neg c3, if_neg c4, if_neg c5, if_neg hne, if_neg c7, if_pos c8], fun s2 v => rfl⟩
        by_cases c9 : ty = "osent".data
        · exact Or.inl ⟨fun s2 => { s2 with osent := num % 2 ^ 32 }, fun L s2 => by
            simp only [srLoop]; rw [if_neg c1, if_neg c2, if_neg c3, if_neg c4, if_neg c5, if_neg hne, if_neg c7, if_neg c8, if_pos c9], fun s2 v => rfl⟩
        exact Or.inr ⟨"Invalid RTCP type ".data ++ ty, fun L s2 => by
          simp only [srLoop]; rw [if_neg c1, if_neg c2, if_neg c3, if_neg c4, if_neg c5, if_neg hne, if_neg c7, if_neg c8, if_neg c9]⟩
      rcases key with ⟨f, hstep, hcomm⟩ | ⟨e, herr⟩
      · rw [hstep rest { st with ntp_sec := v }, hstep rest st, hcomm st v]
        exact ih (f st) v hl2
      · rw [herr rest { st with ntp_sec := v }, herr rest st]
        rfl

/-- `be32` only sees the low 32 bits. -/
theorem be32_mod (v : Nat) : be32 (v % 2 ^ 32) = be32 v := by
  simp only [be32, List.cons.injEq, and_true]
  omega


/-- C8: an `ntp=V` leaf in an SR record description assigns only `ntp_sec`
(`htonl(V)`, i.e. the big-endian bytes of `V mod 2^32` at record offset 8);
the whole record equals the record serialized without the leaf with only that
word replaced, so `ntp_frac` keeps the auto-generated wall-clock value
`htonl(usec2ntp(now.tv_usec))` (bytes 12..15) and every other field is
untouched by the override. -/
theorem C8_sr_ntp_override (ns nu V : Nat) (pre post : List Node)
    (h1 : noLeafNamed "ntp".data pre = true)
    (h2 : noLeafNamed "ntp".data post = true) :
    rtcp_write_sr ns nu (pre ++ Node.leaf "ntp".data V none :: post) =
      (rtcp_write_sr ns nu (pre ++ post)).map
        (fun r => (r.1, r.2.take 8 ++ be32 V ++ r.2.drop 12)) ∧
    (∀ t bs, rtcp_write_sr ns nu (pre ++ Node.leaf "ntp".data V none :: post) = .ok (t, bs) →
      (bs.drop 12).take 4 = be32 (usec2ntp nu)) := by
  constructor
  · unfold rtcp_write_sr
    rw [srLoop_append pre (Node.leaf "ntp".data V none :: post) (srInit ns nu),
        srLoop_append pre post (srInit ns nu)]
    cases hs : srLoop pre (srInit ns nu) with
    | error e => rfl
    | ok st =>
      show Except.bind (srLoop (Node.leaf "ntp".data V none :: post) st) _ =
        (Except.bind (srLoop post st) _).map _
      rw [show srLoop (Node.leaf "ntp".data V none :: post) st =
            srLoop post { st with ntp_sec := V % 2 ^ 32 } from rfl,
          srLoop_set_ntp post st (V % 2 ^ 32) h2]
      cases hp : srLoop post st with
      | error e => rfl
      | ok s2 =>
        simp only [Except.map, Except.bind, be32_mod]
        simp [commonHdr, be16, be32]
  · intro t bs h
    obtain ⟨st, hs, ht, hbs⟩ :=
      rtcp_write_sr_ok ns nu (pre ++ Node.leaf "ntp".data V none :: post) t bs h
    have hfrac : st.ntp_frac = usec2ntp nu :=
      srLoop_ntp_frac (pre ++ Node.leaf "ntp".data V none :: post) (srInit ns nu) st hs
    subst hbs
    rw [show commonHdr st.p (if st.countF = 0 then st.cnt % 32 else st.countF) 200
        (if st.lengthF = 0 then (st.total - 4) / 4 % 2 ^ 16 else st.lengthF) ++
        be32 st.ssrc ++ be32 st.ntp_sec ++ be32 st.ntp_frac ++ be32 st.rtp_ts ++
        be32 st.psent ++ be32 st.osent ++ st.body =
      commonHdr st.p (if st.countF = 0 then st.cnt % 32 else st.countF) 200
        (if st.lengthF = 0 then (st.total - 4) / 4 % 2 ^ 16 else st.lengthF) ++
        (be32 st.ssrc ++ (be32 st.ntp_sec ++ (be32 st.ntp_frac ++ (be32 st.rtp_ts ++
        (be32 st.psent ++ (be32 st.osent ++ st.body)))))) from by
          simp [List.append_assoc]]
    rw [hfrac]
    simp [commonHdr, be16, be32]

/-- Witness for C8 at `pre = [SR]`, `post = []`, `V = 5`, clock `(7, 9)`. -/
theorem C8_sr_ntp_override_witness :
    rtcp_write_sr 7 9 ([Node.leaf "SR".data 0 none] ++ Node.leaf "ntp".data 5 none :: []) =
      (rtcp_write_sr 7 9 ([Node.leaf "SR".data 0 none] ++ [])).map
        (fun r => (r.1, r.2.take 8 ++ be32 5 ++ r.2.drop 12)) :=
  (C8_sr_ntp_override 7 9 5 [Node.leaf "SR".data 0 none] [] (by decide) (by decide)).1


theorem rrBlockLoop_okE (l : List Node) : ∀ st, isOkE (rrBlockLoop l st) =
    !l.any (leafOutside ["ssrc".data, "fraction".data, "lost".data,
      "last_seq".data, "jit".data, "lsr".data, "dlsr".data]) := by
  induction l with
  | nil => intro st; rfl
  | cons n rest ih =>
    intro st
    cases n with
    | group c => simp [rrBlockLoop, leafOutside, ih]
    | leaf ty num s =>
      simp only [rrBlockLoop]
      split_ifs with c1 c2 c3 c4 c5 c6 c7
      · subst c1
        rw [ih, List.any_cons,
          show leafOutside ["ssrc".data, "fraction".data, "lost".data, "last_seq".data,
            "jit".data, "lsr".data, "dlsr".data] (Node.leaf "ssrc".data num s) = false from rfl,
          Bool.false_or]
      · subst c2
        rw [ih, List.any_cons,
          show leafOutside ["ssrc".data, "fraction".data, "lost".data, "last_seq".data,
            "jit".data, "lsr".data, "dlsr".data] (Node.leaf "fraction".data num s) = false from rfl,
          Bool.false_or]
      · subst c3
        rw [ih, List.any_cons,
          show leafOutside ["ssrc".data, "fraction".data, "lost".data, "last_seq".data,
            "jit".data, "lsr".data, "dlsr".data] (Node.leaf "lost".data num s) = false from rfl,
          Bool.false_or]
      · subst c4
        rw [ih, List.any_cons,
          show leafOutside ["ssrc".data, "fraction".data, "lost".data, "last_seq".data,
            "jit".data, "lsr".data, "dlsr".data] (Node.leaf "last_seq".data num s) = false from rfl,
          Bool.false_or]
      · subst c5
        rw [ih, List.any_cons,
          show leafOutside ["ssrc".data, "fraction".data, "lost".data, "last_seq".data,
            "jit".data, "lsr".data, "dlsr".data] (Node.leaf "jit".data num s) = false from rfl,
          Bool.false_or]
      · subst c6
        rw [ih, List.any_cons,
          show leafOutside ["ssrc".data, "fraction".data, "lost".data, "last_seq".data,
            "jit".data, "lsr".data, "dlsr".data] (Node.leaf "lsr".data num s) = false from rfl,
          Bool.false_or]
      · subst c7
        rw [ih, List.any_cons,
          show leafOutside ["ssrc".data, "fraction".data, "lost".data, "last_seq".data,
            "jit".data, "lsr".data, "dlsr".data] (Node.leaf "dlsr".data num s) = false from rfl,
          Bool.false_or]
      · simp [isOkE, List.any_cons, leafOutside, List.contains_cons, beq_iff_eq,
          c1, c2, c3, c4, c5, c6, c7]

theorem rtcp_rr_okE (c : List Node) : isOkE (rtcp_rr c) = !srBlockBad (Node.group c) := by
  rw [show srBlockBad (Node.group c) =
      c.any (leafOutside ["ssrc".data, "fraction".data, "lost".data,
        "last_seq".data, "jit".data, "lsr".data, "dlsr".data]) from rfl,
    ← rrBlockLoop_okE c {}]
  show isOkE (Except.bind (rrBlockLoop c {}) _) = _
  cases rrBlockLoop c {} <;> rfl

theorem sdesLoop_okE (l : List Node) : ∀ st, isOkE (sdesLoop l st) =
    !l.any (leafOutside (recordLeafNames "SDES".data)) := by
  induction l with
  | nil => intro st; rfl
  | cons n rest ih =>
    intro st
    cases n with
    | group c => simp [sdesLoop, leafOutside, ih]
    | leaf ty num s =>
      simp only [sdesLoop]
      split_ifs with c1 c2 c3 c4
      · subst c1
        rw [ih, List.any_cons,
          show leafOutside (recordLeafNames "SDES".data) (Node.leaf "SDES".data num s) =
            false from rfl, Bool.false_or]
      · subst c2
        rw [ih, List.any_cons,
          show leafOutside (recordLeafNames "SDES".data) (Node.leaf "p".data num s) =
            false from rfl, Bool.false_or]
      · subst c3
        rw [ih, List.any_cons,
          show leafOutside (recordLeafNames "SDES".data) (Node.leaf "count".data num s) =
            false from rfl, Bool.false_or]
      · subst c4
        rw [ih, List.any_cons,
          show leafOutside (recordLeafNames "SDES".data) (Node.leaf "len".data num s) =
            false from rfl, Bool.false_or]
      · simp [isOkE, List.any_cons, leafOutside, recordLeafNames, List.contains_cons,
          beq_iff_eq, c1, c2, c3, c4]

theorem byeLoop_okE (l : List Node) : ∀ st, isOkE (byeLoop l st) =
    !l.any (leafOutside (recordLeafNames "BYE".data)) := by
  induction l with
  | nil => intro st; rfl
  | cons n rest ih =>
    intro st
    cases n with
    | group c => simp [byeLoop, leafOutside, ih]
    | leaf ty num s =>
      simp only [byeLoop]
      split_ifs with c1 c2 c3 c4
      · subst c1
        rw [ih, List.any_cons,
          show leafOutside (recordLeafNames "BYE".data) (Node.leaf "BYE".data num s) =
            false from rfl, Bool.false_or]
      · subst c2
        rw [ih, List.any_cons,
          show leafOutside (recordLeafNames "BYE".data) (Node.leaf "p".data num s) =
            false from rfl, Bool.false_or]
      · subst c3
        rw [ih, List.any_cons,
          show leafOutside (recordLeafNames "BYE".data) (Node.leaf "count".data num s) =
            false from rfl, Bool.false_or]
      · subst c4
        rw [ih, List.any_cons,
          show leafOutside (recordLeafNames "BYE".data) (Node.leaf "len".data num s) =
            false from rfl, Bool.false_or]
      · simp [isOkE, List.any_cons, leafOutside, recordLeafNames, List.contains_cons,
          beq_iff_eq, c1, c2, c3, c4]

theorem rrLoop_okE (l : List Node) : ∀ st, isOkE (rrLoop l st) =
    !(l.any (leafOutside (recordLeafNames "RR".data)) || l.any srBlockBad) := by
  induction l with
  | nil => intro st; rfl
  | cons n rest ih =>
    intro st
    cases n with
    | group c =>
      rw [show rrLoop (Node.group c :: rest) st = Except.bind (rtcp_rr c)
          (fun r => rrLoop rest { st with body := st.body ++ r.2, total := st.total + r.1, cnt := st.cnt + 1 }) from rfl]
      cases hr : rtcp_rr c with
      | error e =>
        have hb := rtcp_rr_okE c
        rw [hr] at hb
        simp only [isOkE, Bool.false_eq, Bool.not_eq_false] at hb
        simp [Except.bind, isOkE, leafOutside, hb]
      | ok r =>
        have hb := rtcp_rr_okE c
        rw [hr] at hb
        simp only [isOkE, Bool.true_eq, Bool.not_eq_true] at hb
        simp [Except.bind, ih, leafOutside, hb]
    | leaf ty num s =>
      simp only [rrLoop]
      split_ifs with c1 c2 c3 c4 c5
      · subst c1
        rw [ih, List.any_cons, List.any_cons,
          show leafOutside (recordLeafNames "RR".data) (Node.leaf "RR".data num s) =
            false from rfl,
          show srBlockBad (Node.leaf "RR".data num s) = false from rfl,
          Bool.false_or, Bool.false_or]
      · subst c2
        rw [ih, List.any_cons, List.any_cons,
          show leafOutside (recordLeafNames "RR".data) (Node.leaf "ssrc".data num s) =
            false from rfl,
          show srBlockBad (Node.leaf "ssrc".data num s) = false from rfl,
          Bool.false_or, Bool.false_or]
      · subst c3
        rw [ih, List.any_cons, List.any_cons,
          show leafOutside (recordLeafNames "RR".data) (Node.leaf "p".data num s) =
            false from rfl,
          show srBlockBad (Node.leaf "p".data num s) = false from rfl,
          Bool.false_or, Bool.false_or]
      · subst c4
        rw [ih, List.any_cons, List.any_cons,
          show leafOutside (recordLeafNames "RR".data) (Node.leaf "count".data num s) =
            false from rfl,
          show srBlockBad (Node.leaf "count".data num s) = false from rfl,
          Bool.false_or, Bool.false_or]
      · subst c5
        rw [ih, List.any_cons, List.any_cons,
          show leafOutside (recordLeafNames "RR".data) (Node.leaf "len".data num s) =
            false from rfl,
          show srBlockBad (Node.leaf "len".data num s) = false from rfl,
          Bool.false_or, Bool.false_or]
      · simp [isOkE, List.any_cons, leafOutside, srBlockBad, recordLeafNames,
          List.contains_cons, beq_iff_eq, c1, c2, c3, c4, c5]

theorem srLoop_okE (l : List Node) : ∀ st, isOkE (srLoop l st) =
    !(l.any (leafOutside (recordLeafNames "SR".data)) || l.any srBlockBad) := by
  induction l with
  | nil => intro st; rfl
  | cons n rest ih =>
    intro st
    cases n with
    | group c =>
      rw [show srLoop (Node.group c :: rest) st = Except.bind (rtcp_rr c)
          (fun r => srLoop rest { st with body := st.body ++ r.2, total := st.total + r.1, cnt := st.cnt + 1 }) from rfl]
      cases hr : rtcp_rr c with
      | error e =>
        have hb := rtcp_rr_okE c
        rw [hr] at hb
        simp only [isOkE, Bool.false_eq, Bool.not_eq_false] at hb
        simp [Except.bind, isOkE, leafOutside, hb]
      | ok r =>
        have hb := rtcp_rr_okE c
        rw [hr] at hb
        simp only [isOkE, Bool.true_eq, Bool.not_eq_true] at hb
        simp [Except.bind, ih, leafOutside, hb]
    | leaf ty num s =>
      simp only [srLoop]
      split_ifs with c1 c2 c3 c4 c5 c6 c7 c8 c9
      · subst c1
        rw [ih, List.any_cons, List.any_cons,
          show leafOutside (recordLeafNames "SR".data) (Node.leaf "SR".data num s) =
            false from rfl,
          show srBlockBad (Node.leaf "SR".data num s) = false from rfl,
          Bool.false_or, Bool.false_or]
      · subst c2
        rw [ih, List.any_cons, List.any_cons,
          show leafOutside (recordLeafNames "SR".data) (Node.leaf "ssrc".data num s) =
            false from rfl,
          show srBlockBad (Node.leaf "ssrc".data num s) = false from rfl,
          Bool.false_or, Bool.false_or]
      · subst c3
        rw [ih, List.any_cons, List.any_cons,
          show leafOutside (recordLeafNames "SR".data) (Node.leaf "p".data num s) =
            false from rfl,
          show srBlockBad (Node.leaf "p".data num s) = false from rfl,
          Bool.false_or, Bool.false_or]
      · subst c4
        rw [ih, List.any_cons, List.any_cons,
          show leafOutside (recordLeafNames "SR".data) (Node.leaf "count".data num s) =
            false from rfl,
          show srBlockBad (Node.leaf "count".data num s) = false from rfl,
          Bool.false_or, Bool.false_or]
      · subst c5
        rw [ih, List.any_cons, List.any_cons,
          show leafOutside (recordLeafNames "SR".data) (Node.leaf "len".data num s) =
            false from rfl,
          show srBlockBad (Node.leaf "len".data num s) = false from rfl,
          Bool.false_or, Bool.false_or]
      · subst c6
        rw [ih, List.any_cons, List.any_cons,
          show leafOutside (recordLeafNames "SR".data) (Node.leaf "ntp".data num s) =
            false from rfl,
          show srBlockBad (Node.leaf "ntp".data num s) = false from rfl,
          Bool.false_or, Bool.false_or]
      · subst c7
        rw [ih, List.any_cons, List.any_cons,
          show leafOutside (recordLeafNames "SR".data) (Node.leaf "ts".data num s) =
            false from rfl,
          show srBlockBad (Node.leaf "ts".data num s) = false from rfl,
          Bool.false_or, Bool.false_or]
      · subst c8
        rw [ih, List.any_cons, List.any_cons,
          show leafOutside (recordLeafNames "SR".data) (Node.leaf "psent".data num s) =
            false from rfl,
          show srBlockBad (Node.leaf "psent".data num s) = false from rfl,
          Bool.false_or, Bool.false_or]
      · subst c9
        rw [ih, List.any_cons, List.any_cons,
          show leafOutside (recordLeafNames "SR".data) (Node.leaf "osent".data num s) =
            false from rfl,
          show srBlockBad (Node.leaf "osent".data num s) = false from rfl,
          Bool.false_or, Bool.false_or]
      · simp [isOkE, List.any_cons, leafOutside, srBlockBad, recordLeafNames,
          List.contains_cons, beq_iff_eq, c1, c2, c3, c4, c5, c6, c7, c8, c9]

theorem rtcp_write_sdes_okE (l : List Node) :
    isOkE (rtcp_write_sdes l) = !l.any (leafOutside (recordLeafNames "SDES".data)) := by
  rw [← sdesLoop_okE l {}]
  show isOkE (Except.bind (sdesLoop l {}) _) = _
  cases sdesLoop l {} <;> rfl

theorem rtcp_write_bye_okE (l : List Node) :
    isOkE (rtcp_write_bye l) = !l.any (leafOutside (recordLeafNames "BYE".data)) := by
  rw [← byeLoop_okE l {}]
  show isOkE (Except.bind (byeLoop l {}) _) = _
  cases byeLoop l {} <;> rfl

theorem rtcp_write_rr_okE (l : List Node) :
    isOkE (rtcp_write_rr l) =
      !(l.any (leafOutside (recordLeafNames "RR".data)) || l.any srBlockBad) := by
  rw [← rrLoop_okE l {}]
  show isOkE (Except.bind (rrLoop l {}) _) = _
  cases rrLoop l {} <;> rfl

theorem rtcp_write_sr_okE (ns nu : Nat) (l : List Node) :
    isOkE (rtcp_write_sr ns nu l) =
      !(l.any (leafOutside (recordLeafNames "SR".data)) || l.any srBlockBad) := by
  rw [← srLoop_okE l (srInit ns nu)]
  show isOkE (Except.bind (srLoop l (srInit ns nu)) _) = _
  cases srLoop l (srInit ns nu) <;> rfl

theorem rtcpKind_mem (l : List Node) : ∀ k, rtcpKind l = some k →
    k = "SDES".data ∨ k = "RR".data ∨ k = "SR".data ∨ k = "BYE".data ∨
    k = "APP".data := by
  induction l with
  | nil => intro k h; cases h
  | cons n rest ih =>
    intro k h
    cases n with
    | group c => exact ih k h
    | leaf ty num s =>
      rw [show rtcpKind (Node.leaf ty num s :: rest) =
          (if ty = "SDES".data ∨ ty = "RR".data ∨ ty = "SR".data ∨ ty = "BYE".data ∨
            ty = "APP".data then some ty else rtcpKind rest) from rfl] at h
      by_cases hc : ty = "SDES".data ∨ ty = "RR".data ∨ ty = "SR".data ∨
          ty = "BYE".data ∨ ty = "APP".data
      · rw [if_pos hc] at h
        injection h with h2
        subst h2
        exact hc
      · rw [if_neg hc] at h
        exact ih k h

theorem rtcp_packet_okE (ns nu : Nat) (l : List Node) :
    isOkE (rtcp_packet ns nu l) = !recordFatal l := by
  unfold rtcp_packet recordFatal
  cases hk : rtcpKind l with
  | none => rfl
  | some k =>
    rcases rtcpKind_mem l k hk with h | h | h | h | h <;> subst h
    · simp [rtcp_write_sdes_okE]
    · simp [rtcp_write_rr_okE]
    · simp [rtcp_write_sr_okE]
    · simp [rtcp_write_bye_okE]
    · simp [rtcp_write_app, isOkE]

theorem rtcpLoop_okE (ns nu : Nat) (nodes : List Node) :
    ∀ acc, isOkE (rtcpLoop ns nu nodes acc) = !rtcpFatal nodes := by
  induction nodes with
  | nil => intro acc; rfl
  | cons n rest ih =>
    intro acc
    cases n with
    | leaf ty num s =>
      rw [show rtcpLoop ns nu (Node.leaf ty num s :: rest) acc =
          rtcpLoop ns nu rest acc from rfl, ih acc]
      simp [rtcpFatal, List.any_cons]
    | group c =>
      cases c with
      | nil =>
        rw [show rtcpLoop ns nu (Node.group [] :: rest) acc =
            rtcpLoop ns nu rest acc from rfl, ih acc]
        simp [rtcpFatal, List.any_cons]
      | cons c0 cs =>
        rw [show rtcpLoop ns nu (Node.group (c0 :: cs) :: rest) acc =
            Except.bind (rtcp_packet ns nu (c0 :: cs))
              (fun r => rtcpLoop ns nu rest (acc.1 + r.1, acc.2 ++ r.2)) from rfl]
        cases hr : rtcp_packet ns nu (c0 :: cs) with
        | error e =>
          have hb := rtcp_packet_okE ns nu (c0 :: cs)
          rw [hr] at hb
          simp only [isOkE, Bool.false_eq, Bool.not_eq_false] at hb
          simp [Except.bind, isOkE, rtcpFatal, List.any_cons, hb]
        | ok r =>
          have hb := rtcp_packet_okE ns nu (c0 :: cs)
          rw [hr] at hb
          simp only [isOkE, Bool.true_eq, Bool.not_eq_true] at hb
          have h2 := ih (acc.1 + r.1, acc.2 ++ r.2)
          simp [Except.bind, rtcpFatal, List.any_cons, hb, h2]

theorem rtcp_okE (ns nu : Nat) (text : List Char) :
    isOkE (rtcp ns nu text) = !rtcpFatal (parse text) :=
  rtcpLoop_okE ns nu (parse text) (0, [])

/-- C7 counterexample: for the line `0.0 RTCP (RR (foo=1 ))` the program
dies with `exit(2)` (the report-block serializer `rtcp_rr` rejects the
block-level leaf `foo`), yet none of the conditions the claim enumerates
holds — the time parses, the type is RTCP, the record names `RR`, and every
record-level leaf is recognized; the fatal condition the claim omits is an
unknown leaf key at report-block level. -/
theorem C7_block_leaf_counterexample :
    isOkE (generate 0 0 true "0.0 RTCP (RR (foo=1 ))".data) = false ∧
    claimedFatalCond "0.0 RTCP (RR (foo=1 ))".data = false := by
  constructor <;> rfl

/-- C7 (amended): `generate` fails (the `exit(2)` diagnostic paths) exactly
when `generateFatal` holds: the line has no parseable `sec.usec` time
followed by a type name, the type name is neither RTP nor RTCP, or — for an
RTCP line — some parsed record either names no known record type, contains a
record-level leaf its serializer rejects, or (for SR and RR) contains a
report block with a leaf `rtcp_rr` rejects.  RTP lines never fail. -/
theorem C7_fatal_iff (ns nu : Nat) (le : Bool) (text : List Char) :
    isOkE (generate ns nu le text) = !generateFatal text := by
  cases ht : scanTime text with
  | none =>
    rw [show generate ns nu le text = Except.error "Line is invalid".data from by
          unfold generate; rw [ht],
        show generateFatal text = true from by unfold generateFatal; rw [ht]]
    rfl
  | some r =>
    obtain ⟨sec, usec, tn⟩ := r
    have hg : generate ns nu le text =
        (if tn = "RTP".data then
          Except.ok (sec, usec, 0, (rtp le ((strstrAfter text "RTP".data).getD [])).1,
            (rtp le ((strstrAfter text "RTP".data).getD [])).2)
         else if tn = "RTCP".data then
          (match rtcp ns nu ((strstrAfter text "RTCP".data).getD []) with
           | Except.ok r => Except.ok (sec, usec, 1, r.1, r.2)
           | Except.error e => Except.error e)
         else Except.error "Type is not supported".data) := by
      unfold generate; rw [ht]
    have hf : generateFatal text =
        (if tn = "RTP".data then false
         else if tn = "RTCP".data then
          rtcpFatal (parse ((strstrAfter text "RTCP".data).getD []))
         else true) := by
      unfold generateFatal; rw [ht]
    rw [hg, hf]
    by_cases h1 : tn = "RTP".data
    · rw [if_pos h1, if_pos h1]
      rfl
    · rw [if_neg h1, if_neg h1]
      by_cases h2 : tn = "RTCP".data
      · rw [if_pos h2, if_pos h2]
        cases hc : rtcp ns nu ((strstrAfter text "RTCP".data).getD []) with
        | ok v =>
          have hb := rtcp_okE ns nu ((strstrAfter text "RTCP".data).getD [])
          rw [hc] at hb
          simp only [isOkE, Bool.true_eq, Bool.not_eq_true] at hb
          rw [hb]
          rfl
        | error e =>
          have hb := rtcp_okE ns nu ((strstrAfter text "RTCP".data).getD [])
          rw [hc] at hb
          simp only [isOkE, Bool.false_eq, Bool.not_eq_false] at hb
          rw [hb]
          rfl
      · rw [if_neg h2, if_neg h2]
        rfl

end Theorems


end Rtpsend
